import Mathlib

/-!
# Verification of the mo11y OTLP ingestion service

A shallow embedding of the parts of the mo11y codebase that the verified
claims touch: the OTLP value flatteners (`internal/storage/flatten.go`),
the read-only query gate (`internal/server/query.go`), the auth scope
algebra and key store (`internal/auth`), the retention worker
(`internal/storage/cleanup.go`) and the columnar appenders for traces,
logs and metrics (`internal/storage/{traces,logs,metrics}.go`).

Go strings are modelled as Lean `String`s (valid UTF-8), byte slices as
`List Nat` with entries below 256, `uint64` as `Nat` below `U64`, and
`int64` as `Int` via two's-complement reinterpretation where the code
casts.  Nondeterministic effects (database append failures, UUID and
timestamp generation) are passed in explicitly as environment records.
-/

namespace Mo11y

/-! ## Go primitive helpers -/

/-- `2^64`, the modulus of Go's `uint64`. -/
def U64 : Nat := 18446744073709551616

/-- `2^63`, the sign boundary of Go's `int64`. -/
def I64 : Nat := 9223372036854775808

/-- Reinterpret a `uint64` value (a `Nat` below `U64`) as a Go `int64`
(two's complement). -/
def toInt64 (n : Nat) : Int :=
  if n < I64 then (n : Int) else (n : Int) - (U64 : Int)

/-- Go `uint64` subtraction `a - b` (wraps modulo `2^64`); `a b < U64`. -/
def uint64Sub (a b : Nat) : Nat :=
  (a + U64 - b) % U64

/-- Lowercase hexadecimal digit for `n < 16`, per Go `encoding/hex`
(`hextable = "0123456789abcdef"`). -/
def hexDigit (n : Nat) : Char :=
  if n < 10 then Char.ofNat (48 + n) else Char.ofNat (87 + n)

/-- `encoding/hex.EncodeToString`: two lowercase hex digits per byte
(`b >> 4` and `b & 0xF`; bytes are below 256 so `b / 16 % 16 = b / 16`). -/
def hexEncodeBytes : List Nat → List Char
  | [] => []
  | b :: bs => hexDigit (b / 16 % 16) :: hexDigit (b % 16) :: hexEncodeBytes bs

/-- `storage.hexEncode` (flatten.go): empty byte slice becomes the empty
string, anything else its lowercase hex rendering. -/
def hexEncode (bs : List Nat) : String :=
  if bs = [] then "" else String.mk (hexEncodeBytes bs)

/-- `strconv.FormatInt i 10`: the canonical decimal rendering of an
`int64` (minus sign for negatives, no leading zeros), which is exactly
what `Int`'s `toString` produces. -/
def formatInt (i : Int) : String := toString i

/-- `strconv.FormatBool`. -/
def formatBool (b : Bool) : String := if b then "true" else "false"

/-- A Go `float64`, abstracted by the canonical decimal text that
`strconv.FormatFloat (v, 'f', -1, 64)` produces for it.  No arithmetic is
performed on doubles anywhere in the flattening pipeline, so the
rendering is the only observable the claims need; `encoding/json` emits
the same shortest decimal text for doubles in the non-exponent range. -/
structure Float64 where
  repr : String
deriving DecidableEq

/-- `strconv.FormatFloat (v, 'f', -1, 64)` on the abstracted double. -/
def formatFloat (d : Float64) : String := d.repr

/-- The Go `float64` zero value (renders as `"0"`). -/
def float64Zero : Float64 := ⟨"0"⟩

/-! ## OTLP AnyValue (commonv1.AnyValue after proto unmarshalling)

`vnull` covers both a nil `*AnyValue` and one whose `Value` oneof is
unset: the storage code treats the two identically.  Wire-format
unmarshalling never yields a variant wrapping a nil message pointer, so
array and kvlist variants carry their element lists directly. -/

inductive AnyValue where
  | vnull
  | vstring (s : String)
  | vint (i : Int)
  | vdouble (d : Float64)
  | vbool (b : Bool)
  | vbytes (bs : List Nat)
  | varray (vs : List AnyValue)
  | vkvlist (kvs : List (String × AnyValue))
deriving Inhabited

/-! ## Go map canonicalization

`map[string]T` built by repeated assignment keeps the last value written
for each key; `encoding/json` marshals a map with its keys sorted.  The
model canonicalizes an assignment sequence into that sorted,
last-binding-per-key entry list. -/

/-- The last value assigned to key `k` in an assignment sequence. -/
def lookupLast : List (String × α) → String → Option α
  | [], _ => none
  | (k', v) :: rest, k =>
    match lookupLast rest k with
    | some w => some w
    | none => if k' = k then some v else none

/-- Distinct keys of an assignment sequence, first occurrence order
(accumulator holds the keys already emitted). -/
def dedupKeysAux (seen : List String) : List String → List String
  | [] => []
  | k :: ks => if k ∈ seen then dedupKeysAux seen ks else k :: dedupKeysAux (k :: seen) ks

/-- Distinct keys of an assignment sequence, first occurrence order. -/
def dedupKeys (l : List String) : List String := dedupKeysAux [] l

/-- Go string `<` on character lists: lexicographic by code point,
which on valid UTF-8 agrees with Go's byte-wise comparison. -/
def goStringLtChars : List Char → List Char → Bool
  | [], [] => false
  | [], _ :: _ => true
  | _ :: _, [] => false
  | a :: as, b :: bs =>
    if a.toNat < b.toNat then true
    else if b.toNat < a.toNat then false
    else goStringLtChars as bs

/-- Go string `<` (used by `encoding/json` to sort map keys). -/
def goStringLt (a b : String) : Bool := goStringLtChars a.data b.data

/-- Insert into a key-sorted entry list (insertion sort step). -/
def insertSorted (x : String × α) : List (String × α) → List (String × α)
  | [] => [x]
  | y :: ys => if goStringLt x.1 y.1 then x :: y :: ys else y :: insertSorted x ys

/-- Sort an entry list by key. -/
def sortByKey (l : List (String × α)) : List (String × α) :=
  l.foldr insertSorted []

/-- A Go `map[string]T` as observed by `encoding/json`: distinct keys,
each bound to the last value assigned to it, sorted by key. -/
def goMapCanon (l : List (String × α)) : List (String × α) :=
  sortByKey ((dedupKeys (l.map Prod.fst)).filterMap
    fun k => (lookupLast l k).map fun v => (k, v))

/-! ## encoding/json (the fragment the flattener reaches)

`json.Marshal` with the default HTML-escaping encoder, applied to the
`any` values `anyValueToInterface` produces: nil, string, int64,
float64, bool, `[]any` and `map[string]any`. -/

/-- The `any` value built by `storage.anyValueToInterface` for JSON
marshalling.  A `jobj` holds the canonicalized contents of the Go map
(distinct keys sorted, last assignment wins) — `json.Marshal` sorts map
keys, so canonicalizing at construction yields the same text. -/
inductive JsonValue where
  | jnull
  | jstr (s : String)
  | jint (i : Int)
  | jdbl (d : Float64)
  | jbool (b : Bool)
  | jarr (xs : List JsonValue)
  | jobj (kvs : List (String × JsonValue))

/-- Go JSON string escaping for one character (HTML-escaping encoder):
quote, backslash, `<`, `>`, `&`, controls, U+2028 and U+2029 are
escaped; everything else passes through. -/
def escapeJsonChar (c : Char) : List Char :=
  if c = '"' then ['\\', '"']
  else if c = '\\' then ['\\', '\\']
  else if c = '\n' then ['\\', 'n']
  else if c = '\r' then ['\\', 'r']
  else if c = '\t' then ['\\', 't']
  else if c.toNat < 32 then
    ['\\', 'u', '0', '0', hexDigit (c.toNat / 16 % 16), hexDigit (c.toNat % 16)]
  else if c = '<' then ['\\', 'u', '0', '0', '3', 'c']
  else if c = '>' then ['\\', 'u', '0', '0', '3', 'e']
  else if c = '&' then ['\\', 'u', '0', '0', '2', '6']
  else if c.toNat = 8232 then ['\\', 'u', '2', '0', '2', '8']
  else if c.toNat = 8233 then ['\\', 'u', '2', '0', '2', '9']
  else [c]

/-- Escape every character of a string body. -/
def escapeJsonList : List Char → List Char
  | [] => []
  | c :: cs => escapeJsonChar c ++ escapeJsonList cs

/-- A JSON string literal: quoted, Go-escaped. -/
def jsonQuote (s : String) : String :=
  "\"" ++ String.mk (escapeJsonList s.data) ++ "\""

/-- Comma-join rendered pieces. -/
def commaJoin : List String → String
  | [] => ""
  | [s] => s
  | s :: rest => s ++ "," ++ commaJoin rest

mutual

/-- `json.Marshal` on the reachable `any` shapes. -/
def jsonMarshal : JsonValue → String
  | .jnull => "null"
  | .jstr s => jsonQuote s
  | .jint i => formatInt i
  | .jdbl d => formatFloat d
  | .jbool b => formatBool b
  | .jarr xs => "[" ++ commaJoin (jsonMarshalList xs) ++ "]"
  | .jobj kvs => "\x7b" ++ commaJoin (jsonMarshalObj kvs) ++ "\x7d"

/-- Marshal array elements in order. -/
def jsonMarshalList : List JsonValue → List String
  | [] => []
  | x :: xs => jsonMarshal x :: jsonMarshalList xs

/-- Marshal object entries (already canonicalized) in order. -/
def jsonMarshalObj : List (String × JsonValue) → List String
  | [] => []
  | (k, v) :: kvs => (jsonQuote k ++ ":" ++ jsonMarshal v) :: jsonMarshalObj kvs

end

/-! ## The value flatteners (internal/storage/flatten.go) -/

mutual

/-- `storage.anyValueToInterface`: convert an AnyValue to the `any`
shape handed to `json.Marshal`.  Nested nil kv entries never arise from
the wire and are not modelled. -/
def anyValueToInterface : AnyValue → JsonValue
  | .vnull => .jnull
  | .vstring s => .jstr s
  | .vint i => .jint i
  | .vdouble d => .jdbl d
  | .vbool b => .jbool b
  | .vbytes bs => .jstr (String.mk (hexEncodeBytes bs))
  | .varray vs => .jarr (interfaceList vs)
  | .vkvlist kvs => .jobj (goMapCanon (interfaceKvList kvs))

/-- Convert array elements in order. -/
def interfaceList : List AnyValue → List JsonValue
  | [] => []
  | v :: vs => anyValueToInterface v :: interfaceList vs

/-- Convert kvlist entries in order (the Go map assignment sequence). -/
def interfaceKvList : List (String × AnyValue) → List (String × JsonValue)
  | [] => []
  | (k, v) :: kvs => (k, anyValueToInterface v) :: interfaceKvList kvs

end

/-- `storage.anyValueArrayToJSON`: nil or empty array renders as `[]`,
otherwise the JSON of its converted elements. -/
def anyValueArrayToJSON (vs : List AnyValue) : String :=
  if vs.isEmpty then "[]" else jsonMarshal (.jarr (interfaceList vs))

/-- `storage.anyValueKvlistToJSON`: nil or empty kvlist renders as an
empty JSON object, otherwise the JSON of the Go map built from it. -/
def anyValueKvlistToJSON (kvs : List (String × AnyValue)) : String :=
  if kvs.isEmpty then "\x7b\x7d"
  else jsonMarshal (.jobj (goMapCanon (interfaceKvList kvs)))

/-- `storage.anyValueToString`: flatten an AnyValue to scalar text. -/
def anyValueToString : AnyValue → String
  | .vnull => ""
  | .vstring s => s
  | .vint i => formatInt i
  | .vdouble d => formatFloat d
  | .vbool b => formatBool b
  | .vbytes bs => String.mk (hexEncodeBytes bs)
  | .varray vs => anyValueArrayToJSON vs
  | .vkvlist kvs => anyValueKvlistToJSON kvs

/-- `storage.flattenAttributes`: an empty KeyValue slice yields a nil
map; entries with an empty key (or a nil pointer, not modelled) are
skipped; values are flattened by `anyValueToString`. -/
def flattenAttributes (kvs : List (String × AnyValue)) : Option (List (String × String)) :=
  if kvs.isEmpty then none
  else some (goMapCanon ((kvs.filter fun kv => kv.1 ≠ "").map
    fun kv => (kv.1, anyValueToString kv.2)))

/-- `storage.extractLogBody`: a string body passes through, a kvlist
body becomes a (non-nil, possibly empty) field map with flattened
values, anything else is flattened into the body text.  A nil
`*AnyValue` and an unset oneof (both `vnull`) fall through to the
default arm, which flattens to the empty string. -/
def extractLogBody : AnyValue → String × Option (List (String × String))
  | .vstring s => (s, none)
  | .vkvlist kvs =>
    ("", some (goMapCanon (kvs.map fun kv => (kv.1, anyValueToString kv.2))))
  | v => (anyValueToString v, none)

/-! ## Properties of the Go-map model -/

theorem mem_insertSorted (x y : String × α) (l : List (String × α)) :
    x ∈ insertSorted y l ↔ x = y ∨ x ∈ l := by
  induction l with
  | nil => simp [insertSorted]
  | cons z zs ih =>
    simp only [insertSorted]
    split
    · simp [List.mem_cons]
    · simp only [List.mem_cons, ih]
      tauto

theorem mem_sortByKey (x : String × α) (l : List (String × α)) :
    x ∈ sortByKey l ↔ x ∈ l := by
  induction l with
  | nil => simp [sortByKey]
  | cons y ys ih =>
    show x ∈ insertSorted y (sortByKey ys) ↔ _
    rw [mem_insertSorted, ih]
    simp [List.mem_cons]

theorem mem_dedupKeysAux (x : String) (l : List String) :
    ∀ seen, x ∈ dedupKeysAux seen l ↔ (x ∈ l ∧ x ∉ seen) := by
  induction l with
  | nil => intro seen; simp [dedupKeysAux]
  | cons k ks ih =>
    intro seen
    by_cases hk : k ∈ seen
    · simp only [dedupKeysAux, if_pos hk, ih, List.mem_cons]
      by_cases hx : x = k
      · subst hx; simp [hk]
      · simp [hx]
    · simp only [dedupKeysAux, if_neg hk, List.mem_cons, ih]
      by_cases hx : x = k
      · subst hx; simp [hk]
      · simp [hx]

theorem mem_dedupKeys (x : String) (l : List String) :
    x ∈ dedupKeys l ↔ x ∈ l := by
  rw [dedupKeys, mem_dedupKeysAux]
  simp

theorem lookupLast_eq_some_imp_mem {l : List (String × α)} {k : String} {v : α}
    (h : lookupLast l k = some v) : k ∈ l.map Prod.fst := by
  induction l with
  | nil => simp [lookupLast] at h
  | cons p rest ih =>
    obtain ⟨k', v'⟩ := p
    simp only [lookupLast] at h
    simp only [List.map_cons, List.mem_cons]
    cases hrest : lookupLast rest k with
    | some w =>
      rw [hrest] at h
      injection h with hw
      subst hw
      exact Or.inr (ih hrest)
    | none =>
      rw [hrest] at h
      by_cases he : k' = k
      · exact Or.inl he.symm
      · rw [if_neg he] at h; cases h

theorem mem_imp_lookupLast_isSome {l : List (String × α)} {k : String}
    (h : k ∈ l.map Prod.fst) : ∃ v, lookupLast l k = some v := by
  induction l with
  | nil => simp at h
  | cons p rest ih =>
    obtain ⟨k', v'⟩ := p
    simp only [lookupLast]
    cases hrest : lookupLast rest k with
    | some w => exact ⟨w, rfl⟩
    | none =>
      simp only [List.map_cons, List.mem_cons] at h
      rcases h with h | h
      · refine ⟨v', ?_⟩
        show (if k' = k then some v' else none) = some v'
        rw [if_pos h.symm]
      · obtain ⟨w, hw⟩ := ih h
        rw [hw] at hrest; cases hrest

theorem mem_goMapCanon {l : List (String × α)} {k : String} {v : α} :
    (k, v) ∈ goMapCanon l ↔ lookupLast l k = some v := by
  unfold goMapCanon
  rw [mem_sortByKey, List.mem_filterMap]
  constructor
  · rintro ⟨k', hk', hmap⟩
    cases h : lookupLast l k' with
    | none => rw [h] at hmap; cases hmap
    | some w =>
      rw [h] at hmap
      simp at hmap
      obtain ⟨hk, hv⟩ := hmap
      subst hk; subst hv
      exact h
  · intro h
    refine ⟨k, ?_, by simp [h]⟩
    rw [mem_dedupKeys]
    exact lookupLast_eq_some_imp_mem h

/-! ## Properties of hex encoding and JSON escaping -/

theorem length_hexEncodeBytes (bs : List Nat) :
    (hexEncodeBytes bs).length = 2 * bs.length := by
  induction bs with
  | nil => rfl
  | cons b bs ih =>
    simp only [hexEncodeBytes, List.length_cons, ih]
    ring

theorem hexDigit_mem_hexChars : ∀ n, n < 16 → hexDigit n ∈ "0123456789abcdef".data := by
  decide

theorem mem_hexEncodeBytes {c : Char} {bs : List Nat}
    (h : c ∈ hexEncodeBytes bs) : c ∈ "0123456789abcdef".data := by
  induction bs with
  | nil => cases h
  | cons b bs ih =>
    simp only [hexEncodeBytes, List.mem_cons] at h
    rcases h with h | h | h
    · subst h; exact hexDigit_mem_hexChars _ (Nat.mod_lt _ (by norm_num))
    · subst h; exact hexDigit_mem_hexChars _ (Nat.mod_lt _ (by norm_num))
    · exact ih h

theorem escapeJsonChar_hex {c : Char} (h : c ∈ "0123456789abcdef".data) :
    escapeJsonChar c = [c] := by
  fin_cases h <;> rfl

theorem escapeJsonList_of_safe (l : List Char)
    (h : ∀ c ∈ l, escapeJsonChar c = [c]) : escapeJsonList l = l := by
  induction l with
  | nil => rfl
  | cons c cs ih =>
    simp only [escapeJsonList]
    rw [h c (by simp), ih (fun d hd => h d (by simp [hd]))]
    rfl

/-! ## Claim C5 and C6 theorems -/

/-- C5: the value flattener `anyValueToString` returns the string
itself for string variants, canonical decimal text for int64 and double
variants, `true`/`false` for booleans, lowercase hex for byte strings,
JSON text with native-typed elements (ints and doubles as numbers,
booleans as booleans, bytes as hex strings) for array and kvlist
variants, and the empty string for null values. -/
theorem c5_value_flattener :
    (∀ s, anyValueToString (.vstring s) = s)
  ∧ (∀ i, anyValueToString (.vint i) = formatInt i)
  ∧ (∀ d, anyValueToString (.vdouble d) = formatFloat d)
  ∧ (∀ b, anyValueToString (.vbool b) = if b then "true" else "false")
  ∧ (∀ bs, (anyValueToString (.vbytes bs)).length = 2 * bs.length
      ∧ ∀ c ∈ (anyValueToString (.vbytes bs)).data, c ∈ "0123456789abcdef".data)
  ∧ (∀ i, anyValueToString (.varray [.vint i]) = "[" ++ formatInt i ++ "]")
  ∧ (∀ d, anyValueToString (.varray [.vdouble d]) = "[" ++ formatFloat d ++ "]")
  ∧ (∀ b, anyValueToString (.varray [.vbool b]) = "[" ++ formatBool b ++ "]")
  ∧ (∀ bs, anyValueToString (.varray [.vbytes bs])
      = "[" ++ ("\"" ++ String.mk (hexEncodeBytes bs) ++ "\"") ++ "]")
  ∧ anyValueToString .vnull = ""
  ∧ anyValueToString (.vint 7) = "7"
  ∧ anyValueToString (.vbool true) = "true"
  ∧ anyValueToString (.vbytes [171, 205]) = "abcd"
  ∧ anyValueToString (.varray [.vint 1, .vstring "x"]) = "[1,\"x\"]"
  ∧ anyValueToString (.vkvlist [("a", .vint 1), ("b", .vstring "x")])
      = "\x7b\"a\":1,\"b\":\"x\"\x7d" := by
  refine ⟨fun s => rfl, fun i => rfl, fun d => rfl, fun b => rfl, ?_, ?_, ?_, ?_, ?_,
    rfl, by decide, by decide, by decide, by decide, by decide⟩
  · intro bs
    constructor
    · show (String.mk (hexEncodeBytes bs)).length = _
      simpa using length_hexEncodeBytes bs
    · intro c hc
      exact mem_hexEncodeBytes hc
  · intro i
    simp [anyValueToString, anyValueArrayToJSON, interfaceList, anyValueToInterface,
      jsonMarshal, jsonMarshalList, commaJoin]
  · intro d
    simp [anyValueToString, anyValueArrayToJSON, interfaceList, anyValueToInterface,
      jsonMarshal, jsonMarshalList, commaJoin]
  · intro b
    simp [anyValueToString, anyValueArrayToJSON, interfaceList, anyValueToInterface,
      jsonMarshal, jsonMarshalList, commaJoin, formatBool]
  · intro bs
    have hsafe : escapeJsonList (hexEncodeBytes bs) = hexEncodeBytes bs :=
      escapeJsonList_of_safe _ (fun c hc => escapeJsonChar_hex (mem_hexEncodeBytes hc))
    simp [anyValueToString, anyValueArrayToJSON, interfaceList, anyValueToInterface,
      jsonMarshal, jsonMarshalList, commaJoin, jsonQuote, hsafe]

/-- Witness for C5: the bytes conjuncts applied at byte slice
`[0xAB, 0xCD]` and character `a`. -/
theorem c5_value_flattener_witness :
    (anyValueToString (.vbytes [171, 205])).length = 2 * 2
    ∧ 'a' ∈ "0123456789abcdef".data :=
  ⟨(c5_value_flattener.2.2.2.2.1 [171, 205]).1,
   (c5_value_flattener.2.2.2.2.1 [171, 205]).2 'a' (by decide)⟩

/-- C6: the log-body extractor returns (string, empty fields) for a
string body; (empty body, flat stringified map) for a kvlist body — the
field map binds `k` to `v` exactly when the last kvlist entry for `k`
stringifies to `v` under the ordinary flattening rule; and
(stringified form, empty fields) for every other variant. -/
theorem c6_log_body_extractor :
    (∀ s, extractLogBody (.vstring s) = (s, none))
  ∧ (∀ kvs : List (String × AnyValue),
      (extractLogBody (.vkvlist kvs)).1 = ""
      ∧ ∃ m, (extractLogBody (.vkvlist kvs)).2 = some m
          ∧ ∀ k v, ((k, v) ∈ m ↔
              lookupLast (kvs.map fun kv => (kv.1, anyValueToString kv.2)) k = some v))
  ∧ (∀ v : AnyValue, (∀ s, v ≠ .vstring s) → (∀ kvs, v ≠ .vkvlist kvs) →
      extractLogBody v = (anyValueToString v, none)) := by
  refine ⟨fun s => rfl, ?_, ?_⟩
  · intro kvs
    exact ⟨rfl, ⟨_, rfl, fun k v => mem_goMapCanon⟩⟩
  · intro v hs hkv
    cases v with
    | vstring s => exact absurd rfl (hs s)
    | vkvlist kvs => exact absurd rfl (hkv kvs)
    | vnull => rfl
    | vint i => rfl
    | vdouble d => rfl
    | vbool b => rfl
    | vbytes bs => rfl
    | varray vs => rfl

/-- Witness for C6: the non-string, non-kvlist arm applied at the int
body `3`, and the string arm at `"hi"`. -/
theorem c6_log_body_extractor_witness :
    extractLogBody (.vint 3) = ("3", none) ∧ extractLogBody (.vstring "hi") = ("hi", none) :=
  ⟨c6_log_body_extractor.2.2 (.vint 3)
      (fun _ h => AnyValue.noConfusion h) (fun _ h => AnyValue.noConfusion h),
   c6_log_body_extractor.1 "hi"⟩

/-! ## The query gate (internal/server/query.go)

`handleQuery` validates the `sql` form parameter before executing it.
`strings.ToUpper` is modelled exactly on the code points whose
Unicode uppercase is ASCII and observationally on the rest (see
`goToUpperChar`); `strings.TrimSpace` on the Unicode
white-space set. -/

/-- The blocked keyword list of `internal/server/query.go`. -/
def blockedKeywords : List String :=
  ["EXPLAIN", "DESCRIBE", "SHOW", "PRAGMA", "ATTACH", "DETACH"]

/-- The rejection reasons of `handleQuery` (each answered with 400). -/
inductive QueryReject where
  | missingSql
  | onlySelect
  | multiStatement
  | blockedKeyword (kw : String)
deriving DecidableEq

/-- `unicode.IsSpace`: the Unicode white-space code points. -/
def goIsSpace (c : Char) : Bool :=
  c = ' ' || c = '\t' || c = '\n' || c.toNat = 11 || c.toNat = 12 || c = '\r' ||
  c.toNat = 133 || c.toNat = 160 || c.toNat = 5760 ||
  (decide (8192 ≤ c.toNat) && decide (c.toNat ≤ 8202)) ||
  c.toNat = 8232 || c.toNat = 8233 ||
  c.toNat = 8239 || c.toNat = 8287 || c.toNat = 12288

/-- `strings.TrimSpace`: drop white space from both ends. -/
def trimSpace (s : String) : String :=
  String.mk (((s.data.dropWhile goIsSpace).reverse.dropWhile goIsSpace).reverse)

/-- `strings.ToUpper` on one character (Unicode simple case mapping),
exact on every code point whose uppercase is an ASCII letter: `a`-`z`
map to `A`-`Z`, U+017F (the long s `383`) uppercases to `S`, and
U+0131 (the dotless i `305`) uppercases to `I` — these three groups are
the only code points Unicode uppercases into the ASCII range.  Every
other code point uppercases to a non-ASCII code point (or to itself)
and is modelled as identity; the handler matches the uppercased text
only against ASCII-only keywords, where one non-ASCII character is as
good as another, so the model is observationally exact for it. -/
def goToUpperChar (c : Char) : Char :=
  if 97 ≤ c.toNat ∧ c.toNat ≤ 122 then Char.ofNat (c.toNat - 32)
  else if c.toNat = 383 then 'S'
  else if c.toNat = 305 then 'I'
  else c

/-- `strings.ToUpper` (per-character, see `goToUpperChar`). -/
def goToUpper (s : String) : String :=
  String.mk (s.data.map goToUpperChar)

/-- `strings.HasPrefix` over character lists (pattern first). -/
def hasPrefixChars : List Char → List Char → Bool
  | [], _ => true
  | _ :: _, [] => false
  | p :: ps, c :: cs => (p = c) && hasPrefixChars ps cs

/-- `strings.Contains` over character lists (pattern first). -/
def containsChars (pat : List Char) : List Char → Bool
  | [] => hasPrefixChars pat []
  | c :: cs => hasPrefixChars pat (c :: cs) || containsChars pat cs

/-- `strings.HasPrefix s pre`. -/
def goHasPrefix (s pre : String) : Bool := hasPrefixChars pre.data s.data

/-- `strings.Contains s sub`. -/
def goContains (s sub : String) : Bool := containsChars sub.data s.data

/-- Case-insensitive prefix test over character lists (pattern first):
the spec reading of "begins with SELECT or WITH, case-insensitively". -/
def ciHasPrefixChars : List Char → List Char → Bool
  | [], _ => true
  | _ :: _, [] => false
  | p :: ps, c :: cs => (goToUpperChar p = goToUpperChar c) && ciHasPrefixChars ps cs

/-- Case-insensitive substring test over character lists (pattern first). -/
def ciContainsChars (pat : List Char) : List Char → Bool
  | [] => ciHasPrefixChars pat []
  | c :: cs => ciHasPrefixChars pat (c :: cs) || ciContainsChars pat cs

/-- `s` begins with `pat`, case-insensitively (folding by Go's
per-character uppercase mapping `goToUpperChar`). -/
def ciHasPrefix (s pat : String) : Bool := ciHasPrefixChars pat.data s.data

/-- `s` contains `pat` as a substring, case-insensitively (folding
by Go's per-character uppercase mapping `goToUpperChar`). -/
def ciContains (s pat : String) : Bool := ciContainsChars pat.data s.data

/-- The validation and rewrite pipeline of `handleQuery`
(query.go lines 32-69): trim, require non-empty, require a SELECT/WITH
prefix of the uppercased text, forbid `;`, forbid blocked keywords, then
append ` LIMIT 1000` when the uppercased text does not contain `LIMIT`.
Returns the SQL text actually executed, or the rejection. -/
def validateQuery (raw : String) : Except QueryReject String :=
  let sql := trimSpace raw
  if sql = "" then .error .missingSql
  else if !(goHasPrefix (goToUpper sql) "SELECT" || goHasPrefix (goToUpper sql) "WITH") then
    .error .onlySelect
  else if goContains sql ";" then .error .multiStatement
  else
    match blockedKeywords.find? (fun kw => goContains (goToUpper sql) kw) with
    | some kw => .error (.blockedKeyword kw)
    | none => .ok (if goContains (goToUpper sql) "LIMIT" then sql else sql ++ " LIMIT 1000")

/-- The rejection condition exactly as the claim states it: empty after
trimming, or not beginning case-insensitively with SELECT or WITH, or
containing a semicolon, or containing a blocked keyword
case-insensitively. -/
def queryRejected (raw : String) : Prop :=
  trimSpace raw = ""
  ∨ ¬(ciHasPrefix (trimSpace raw) "SELECT" = true ∨ ciHasPrefix (trimSpace raw) "WITH" = true)
  ∨ goContains (trimSpace raw) ";" = true
  ∨ ∃ kw ∈ blockedKeywords, ciContains (trimSpace raw) kw = true

/-- Uppercasing then exact matching is case-insensitive matching, for a
pattern that is already uppercase: prefix version. -/
theorem hasPrefixChars_upper (pat : List Char) (hp : ∀ p ∈ pat, goToUpperChar p = p) :
    ∀ s : List Char, hasPrefixChars pat (s.map goToUpperChar) = ciHasPrefixChars pat s := by
  induction pat with
  | nil => intro s; cases s <;> rfl
  | cons p ps ih =>
    intro s
    cases s with
    | nil => rfl
    | cons c cs =>
      simp only [List.map_cons, hasPrefixChars, ciHasPrefixChars]
      rw [ih (fun q hq => hp q (List.mem_cons_of_mem _ hq)) cs,
        hp p (List.mem_cons_self _ _)]

/-- Uppercasing then exact matching is case-insensitive matching, for a
pattern that is already uppercase: substring version. -/
theorem containsChars_upper (pat : List Char) (hp : ∀ p ∈ pat, goToUpperChar p = p) :
    ∀ s : List Char, containsChars pat (s.map goToUpperChar) = ciContainsChars pat s := by
  intro s
  induction s with
  | nil =>
    show hasPrefixChars pat [] = ciHasPrefixChars pat []
    have := hasPrefixChars_upper pat hp []
    simpa using this
  | cons c cs ih =>
    simp only [List.map_cons, containsChars, ciContainsChars]
    rw [ih]
    have := hasPrefixChars_upper pat hp (c :: cs)
    simp only [List.map_cons] at this
    rw [this]

/-- Bridge at the `String` level: `goContains (goToUpper s) pat` is the
case-insensitive containment when `pat` is uppercase. -/
theorem goContains_upper (s pat : String) (hp : ∀ p ∈ pat.data, goToUpperChar p = p) :
    goContains (goToUpper s) pat = ciContains s pat :=
  containsChars_upper pat.data hp s.data

/-- Bridge at the `String` level: prefix version. -/
theorem goHasPrefix_upper (s pat : String) (hp : ∀ p ∈ pat.data, goToUpperChar p = p) :
    goHasPrefix (goToUpper s) pat = ciHasPrefix s pat :=
  hasPrefixChars_upper pat.data hp s.data

/-- C2: the query handler rejects (400) exactly the statements that are
empty after trimming, or do not begin case-insensitively with SELECT or
WITH, or contain a semicolon, or contain a blocked keyword (EXPLAIN,
DESCRIBE, SHOW, PRAGMA, ATTACH, DETACH) case-insensitively; and every
accepted statement is executed verbatim with ` LIMIT 1000` appended
exactly when the uppercased statement does not contain `LIMIT`. -/
theorem c2_query_gate (raw : String) :
    ((∃ e, validateQuery raw = Except.error e) ↔ queryRejected raw)
    ∧ ∀ out, validateQuery raw = Except.ok out →
        ¬ queryRejected raw
        ∧ out = (if ciContains (trimSpace raw) "LIMIT" = true then trimSpace raw
                 else trimSpace raw ++ " LIMIT 1000") := by
  have hselp : ∀ p ∈ "SELECT".data, goToUpperChar p = p := by decide
  have hwithp : ∀ p ∈ "WITH".data, goToUpperChar p = p := by decide
  have hlimitp : ∀ p ∈ "LIMIT".data, goToUpperChar p = p := by decide
  have hkwp : ∀ kw ∈ blockedKeywords, ∀ p ∈ kw.data, goToUpperChar p = p := by decide
  by_cases h1 : trimSpace raw = ""
  · have hv : validateQuery raw = .error .missingSql := by
      simp [validateQuery, h1]
    refine ⟨iff_of_true ⟨_, hv⟩ (Or.inl h1), ?_⟩
    intro out hout
    rw [hv] at hout
    exact Except.noConfusion hout
  · by_cases h2 : ciHasPrefix (trimSpace raw) "SELECT" = true
        ∨ ciHasPrefix (trimSpace raw) "WITH" = true
    · have hcond : (goHasPrefix (goToUpper (trimSpace raw)) "SELECT"
          || goHasPrefix (goToUpper (trimSpace raw)) "WITH") = true := by
        rw [goHasPrefix_upper _ _ hselp, goHasPrefix_upper _ _ hwithp]
        rcases h2 with h | h <;> simp [h]
      by_cases h3 : goContains (trimSpace raw) ";" = true
      · have hv : validateQuery raw = .error .multiStatement := by
          simp [validateQuery, h1, hcond, h3]
        refine ⟨iff_of_true ⟨_, hv⟩ (Or.inr (Or.inr (Or.inl h3))), ?_⟩
        intro out hout
        rw [hv] at hout
        exact Except.noConfusion hout
      · have h3f : goContains (trimSpace raw) ";" = false := by
          cases hx : goContains (trimSpace raw) ";"
          · rfl
          · exact absurd hx h3
        by_cases h4 : ∃ kw ∈ blockedKeywords, ciContains (trimSpace raw) kw = true
        · have hfind : (blockedKeywords.find?
              (fun kw => goContains (goToUpper (trimSpace raw)) kw)).isSome := by
            rw [List.find?_isSome]
            obtain ⟨kw, hmem, hc⟩ := h4
            exact ⟨kw, hmem, by rw [goContains_upper _ _ (hkwp kw hmem)]; exact hc⟩
          obtain ⟨kw0, hkw0⟩ := Option.isSome_iff_exists.mp hfind
          have hv : validateQuery raw = .error (.blockedKeyword kw0) := by
            simp [validateQuery, h1, hcond, h3f, hkw0]
          refine ⟨iff_of_true ⟨_, hv⟩ (Or.inr (Or.inr (Or.inr h4))), ?_⟩
          intro out hout
          rw [hv] at hout
          exact Except.noConfusion hout
        · have hfind : blockedKeywords.find?
              (fun kw => goContains (goToUpper (trimSpace raw)) kw) = none := by
            rw [List.find?_eq_none]
            intro kw hmem
            rw [goContains_upper _ _ (hkwp kw hmem)]
            exact fun hc => h4 ⟨kw, hmem, hc⟩
          have hv : validateQuery raw
              = .ok (if goContains (goToUpper (trimSpace raw)) "LIMIT" then trimSpace raw
                     else trimSpace raw ++ " LIMIT 1000") := by
            simp [validateQuery, h1, hcond, h3f, hfind]
          have hnr : ¬ queryRejected raw := by
            intro hr
            rcases hr with hr | hr | hr | hr
            · exact h1 hr
            · exact hr h2
            · exact h3 hr
            · exact h4 hr
          constructor
          · refine iff_of_false ?_ hnr
            rintro ⟨e, he⟩
            rw [hv] at he
            exact Except.noConfusion he
          · intro out hout
            rw [hv] at hout
            injection hout with hout
            refine ⟨hnr, ?_⟩
            rw [← hout, goContains_upper _ _ hlimitp]
    · have ha : ciHasPrefix (trimSpace raw) "SELECT" = false := by
        cases hx : ciHasPrefix (trimSpace raw) "SELECT"
        · rfl
        · exact absurd (Or.inl hx) h2
      have hb : ciHasPrefix (trimSpace raw) "WITH" = false := by
        cases hx : ciHasPrefix (trimSpace raw) "WITH"
        · rfl
        · exact absurd (Or.inr hx) h2
      have hcond : (goHasPrefix (goToUpper (trimSpace raw)) "SELECT"
          || goHasPrefix (goToUpper (trimSpace raw)) "WITH") = false := by
        rw [goHasPrefix_upper _ _ hselp, goHasPrefix_upper _ _ hwithp, ha, hb]
        rfl
      have hv : validateQuery raw = .error .onlySelect := by
        simp [validateQuery, h1, hcond]
      refine ⟨iff_of_true ⟨_, hv⟩ (Or.inr (Or.inl h2)), ?_⟩
      intro out hout
      rw [hv] at hout
      exact Except.noConfusion hout

/-- Witness for C2: the accepted-statement conjunct applied at
`SELECT 1`, which is rewritten to `SELECT 1 LIMIT 1000`. -/
theorem c2_query_gate_witness :
    ¬ queryRejected "SELECT 1"
    ∧ "SELECT 1 LIMIT 1000"
      = (if ciContains (trimSpace "SELECT 1") "LIMIT" = true then trimSpace "SELECT 1"
         else trimSpace "SELECT 1" ++ " LIMIT 1000") :=
  (c2_query_gate "SELECT 1").2 "SELECT 1 LIMIT 1000" (by rfl)

/-! ## Scope algebra (internal/auth/scopes.go)

Go's `Scope` is an `int` bitmask; `ParseScopes` only ever produces
bitmasks over `ingest=1, read=2, admin=4`, modelled as `Nat`. -/

/-- `ScopeIngest = 1`. -/
def ScopeIngest : Nat := 1

/-- `ScopeRead = 2`. -/
def ScopeRead : Nat := 2

/-- `ScopeAdmin = 4`. -/
def ScopeAdmin : Nat := 4

/-- `Scope.Has` (scopes.go lines 14-21): admin has all permissions,
otherwise the bitmask must intersect the required scope. -/
def scopeHas (s required : Nat) : Bool :=
  if s &&& ScopeAdmin ≠ 0 then true
  else decide (s &&& required ≠ 0)

/-- `n &&& 2^k` keeps exactly bit `k`. -/
theorem land_two_pow_eq (s k : Nat) :
    s &&& 2 ^ k = if s.testBit k then 2 ^ k else 0 := by
  apply Nat.eq_of_testBit_eq
  intro j
  rw [Nat.testBit_and]
  by_cases h : j = k
  · subst h
    by_cases hs : s.testBit j
    · simp [hs, Nat.testBit_two_pow_self]
    · simp [hs]
  · by_cases hs : s.testBit k
    · simp only [if_pos hs]
      rw [Nat.testBit_two_pow]
      simp [Ne.symm h]
    · simp only [if_neg hs, Nat.zero_testBit, Bool.and_eq_false_imp]
      rw [Nat.testBit_two_pow]
      simp [Ne.symm h]

/-! ## API key store (internal/auth/auth.go)

The `api_keys` table is a row list; SQL text timestamps (RFC3339) are
plain strings; Go key strings are byte lists (`len` and `[:12]` slice
in bytes).  UUIDs and clock readings are environment inputs. -/

/-- The auth error values of scopes.go. -/
inductive AuthErr where
  | invalidKey
  | keyRevoked
  | keyExpired
  | keyNotFound
deriving DecidableEq

/-- One row of the `api_keys` table. -/
structure ApiKeyRow where
  id : String
  name : String
  keyHash : List Nat
  keyPfx : List Nat
  scopes : Nat
  createdAt : String
  expiresAt : Option String
  revokedAt : Option String
  lastUsedAt : Option String
  createdBy : Option String
deriving DecidableEq

/-- The outcome of a Go call that can panic: `panic`, an error return,
or a normal return. -/
inductive GoResult (α : Type) where
  | panic
  | err (msg : String)
  | ok (val : α)
deriving DecidableEq

/-- `Auth.RevokeKey` (auth.go lines 202-216):
`UPDATE api_keys SET revoked_at = ? WHERE id = ? AND revoked_at IS NULL`,
then `ErrKeyNotFound` when no row was affected.  (A failed `ExecContext`
returns the driver error before the row count is read; that
infrastructure path is outside the claim and not modelled — the model
is the successful-statement path.  The error of `RowsAffected` is
discarded by the code itself.) -/
def revokeKey (tbl : List ApiKeyRow) (keyID now : String) :
    Except AuthErr (List ApiKeyRow) :=
  let affected := (tbl.filter fun r => r.id = keyID ∧ r.revokedAt = none).length
  let updated := tbl.map fun r =>
    if r.id = keyID ∧ r.revokedAt = none then { r with revokedAt := some now } else r
  if affected = 0 then .error .keyNotFound else .ok updated

/-- `Auth.hashKey` computes `hex(SHA-256(key + pepper))`.  The digest is
abstracted to the (injective) concatenation it is computed from: no
claim under verification depends on the digest function itself, only on
the hash being a deterministic function of `key + pepper`. -/
def hashKey (pepper key : List Nat) : List Nat := key ++ pepper

/-- `Auth.createKeyInternal` (auth.go lines 179-200): generate an id,
hash the key, take `key[:12]` as the display prefix — a Go string slice
that PANICS when the key is shorter than 12 bytes — then INSERT the row
(the unique index on `key_hash` makes a duplicate hash an SQL error).
The generated UUID `id` and the clock reading `now` are inputs. -/
def createKeyInternal (tbl : List ApiKeyRow) (id name : String) (scopes : Nat)
    (expiresAt : Option String) (key : List Nat) (createdBy : String)
    (now : String) (pepper : List Nat) : GoResult (List Nat × List ApiKeyRow) :=
  let hash := hashKey pepper key
  if key.length < 12 then .panic
  else if tbl.any fun r => r.keyHash = hash then
    .err "UNIQUE constraint failed: api_keys.key_hash"
  else
    let row : ApiKeyRow :=
      { id := id, name := name, keyHash := hash, keyPfx := key.take 12,
        scopes := scopes, createdAt := now, expiresAt := expiresAt,
        revokedAt := none, lastUsedAt := none, createdBy := some createdBy }
    .ok (key, tbl ++ [row])

/-- `Auth.Bootstrap` (auth.go lines 110-132): no-op for an empty
bootstrap key or a non-empty table, otherwise create `bootstrap-admin`
with admin scope via `createKeyInternal`. -/
def bootstrap (tbl : List ApiKeyRow) (bootstrapKey : List Nat)
    (id now : String) (pepper : List Nat) : GoResult (List ApiKeyRow) :=
  if bootstrapKey = [] then .ok tbl
  else if tbl.length > 0 then .ok tbl
  else
    match createKeyInternal tbl id "bootstrap-admin" ScopeAdmin none bootstrapKey
        "system" now pepper with
    | .panic => .panic
    | .err e => .err e
    | .ok (_, tbl2) => .ok tbl2

/-! ## Claims C9, C3, C10 -/

/-- C9: for every scope bitmask `s` and required scope `r` among the
three declared scopes (ingest, read, admin), `Scope.Has` returns true
exactly when `s` contains the admin bit or `s` contains `r` (admin
implies all permissions). -/
theorem c9_scope_has (s r : Nat)
    (hr : r = ScopeIngest ∨ r = ScopeRead ∨ r = ScopeAdmin) :
    (scopeHas s r = true ↔ (s &&& ScopeAdmin ≠ 0 ∨ s &&& r = r)) := by
  have key : ∀ k : Nat, r = 2 ^ k → (s &&& r ≠ 0 ↔ s &&& r = r) := by
    intro k hk
    subst hk
    rw [land_two_pow_eq]
    have h2 : (2 : Nat) ^ k ≠ 0 := (Nat.two_pow_pos k).ne'
    by_cases hs : s.testBit k
    · simp [hs]
    · simp [hs, h2, Ne.symm h2]
  unfold scopeHas
  by_cases ha : s &&& ScopeAdmin ≠ 0
  · simp [ha]
  · simp only [if_neg ha, decide_eq_true_eq]
    rcases hr with h | h | h <;> subst h
    · rw [key 0 rfl]
      simp [ha]
    · rw [key 1 rfl]
      simp [ha]
    · rw [key 2 rfl]
      simp [ha]

/-- Witness for C9: the mask `5 = ingest + admin` has the `read` scope
through the admin bit. -/
theorem c9_scope_has_witness :
    scopeHas 5 ScopeRead = true ↔ (5 &&& ScopeAdmin ≠ 0 ∨ 5 &&& ScopeRead = ScopeRead) :=
  c9_scope_has 5 ScopeRead (Or.inr (Or.inl rfl))

/-- An already-revoked key row (id `k1`). -/
def revokedRow : ApiKeyRow :=
  { id := "k1", name := "ci", keyHash := [1, 2], keyPfx := [3], scopes := 1,
    createdAt := "2024-01-01T00:00:00Z", expiresAt := none,
    revokedAt := some "2024-02-01T00:00:00Z", lastUsedAt := none,
    createdBy := some "admin" }

/-- An active (never revoked) key row (id `k2`). -/
def activeRow : ApiKeyRow :=
  { id := "k2", name := "ci2", keyHash := [9], keyPfx := [3], scopes := 2,
    createdAt := "2024-01-01T00:00:00Z", expiresAt := none,
    revokedAt := none, lastUsedAt := none, createdBy := some "admin" }

/-- Counterexample to C3 as stated: the table holds the (known) id `k1`,
but because that key is already revoked, RevokeKey returns the not-found
error instead of succeeding — revocation is not idempotent. -/
theorem c3_revoke_key_counterexample :
    revokeKey [revokedRow] "k1" "2024-03-01T00:00:00Z"
      = Except.error AuthErr.keyNotFound
    ∧ revokedRow.id = "k1" ∧ revokedRow.revokedAt ≠ none :=
  ⟨rfl, rfl, by decide⟩

/-- C3 (amended): RevokeKey returns the not-found error exactly when no
active (non-revoked) row carries the given id — in particular,
re-revoking an already-revoked key also returns not-found; on success
exactly the matching active rows get `revoked_at` set and every other
row is unchanged. -/
theorem c3_revoke_key (tbl : List ApiKeyRow) (keyID now : String) :
    (revokeKey tbl keyID now = .error .keyNotFound
      ↔ ∀ r ∈ tbl, ¬(r.id = keyID ∧ r.revokedAt = none))
    ∧ ∀ tbl2, revokeKey tbl keyID now = .ok tbl2 →
        tbl2 = tbl.map (fun r => if r.id = keyID ∧ r.revokedAt = none
          then { r with revokedAt := some now } else r) := by
  have hiff : ((tbl.filter fun r => r.id = keyID ∧ r.revokedAt = none).length = 0)
      ↔ ∀ r ∈ tbl, ¬(r.id = keyID ∧ r.revokedAt = none) := by
    rw [List.length_eq_zero, List.filter_eq_nil_iff]
    simp
  by_cases h : (tbl.filter fun r => r.id = keyID ∧ r.revokedAt = none).length = 0
  · constructor
    · refine iff_of_true ?_ (hiff.mp h)
      simp only [revokeKey]
      rw [if_pos h]
    · intro tbl2 htbl2
      simp only [revokeKey] at htbl2
      rw [if_pos h] at htbl2
      exact Except.noConfusion htbl2
  · constructor
    · refine iff_of_false ?_ (fun hall => h (hiff.mpr hall))
      intro hc
      simp only [revokeKey] at hc
      rw [if_neg h] at hc
      exact Except.noConfusion hc
    · intro tbl2 htbl2
      simp only [revokeKey] at htbl2
      rw [if_neg h] at htbl2
      injection htbl2 with htbl2
      exact htbl2.symm

/-- Witness for C3 (amended): revoking the active key `k2` succeeds and
marks exactly that row revoked. -/
theorem c3_revoke_key_witness :
    [{ activeRow with revokedAt := some "2024-03-01T00:00:00Z" }]
      = [activeRow].map (fun r => if r.id = "k2" ∧ r.revokedAt = none
          then { r with revokedAt := some "2024-03-01T00:00:00Z" } else r) :=
  (c3_revoke_key [activeRow] "k2" "2024-03-01T00:00:00Z").2 _ (by rfl)

/-- C10: `createKeyInternal` takes `key[:12]` as the display prefix and
so assumes at least 12 bytes of key; for any non-empty configured
bootstrap key shorter than 12 bytes, Bootstrap against an empty key
table panics instead of returning an error. -/
theorem c10_bootstrap_panics (key : List Nat) (id now : String) (pepper : List Nat)
    (hne : key ≠ []) (hlen : key.length < 12) :
    bootstrap [] key id now pepper = .panic := by
  simp [bootstrap, createKeyInternal, hne, hlen]

/-- Witness for C10: the five-byte bootstrap key `short` panics. -/
theorem c10_bootstrap_panics_witness :
    bootstrap [] [115, 104, 111, 114, 116] "id-1" "2024-01-01T00:00:00Z" [112]
      = .panic :=
  c10_bootstrap_panics [115, 104, 111, 114, 116] "id-1" "2024-01-01T00:00:00Z" [112]
    (by decide) (by decide)

/-! ## Retention worker (internal/storage/cleanup.go)

Each telemetry table is abstracted to the list of `ingested_at` stamps
of its rows — the only column retention reads.  Instants are integers
counted in hours, so `cutoff = now - retentionHours`; `timestamp` and
`duration` of the result record are the corresponding clock readings,
passed in as environment inputs. -/

/-- The five telemetry tables. -/
structure TelemetryDB where
  spanEvents : List Int
  spanLinks : List Int
  spans : List Int
  logs : List Int
  metrics : List Int
deriving DecidableEq

/-- `storage.CleanupResult`: per-table affected-row counts (Go `int64`
row counts are list lengths here). -/
structure CleanupResult where
  timestamp : Int
  duration : Int
  spansDeleted : Nat
  spanEventsDeleted : Nat
  spanLinksDeleted : Nat
  logsDeleted : Nat
  metricsDeleted : Nat
deriving DecidableEq

/-- Which SQL statements of a cleanup cycle succeed (the environment):
BEGIN, the i-th DELETE, COMMIT, CHECKPOINT. -/
structure SqlOracle where
  beginOk : Bool
  deleteOk : Nat → Bool
  commitOk : Bool
  checkpointOk : Bool

/-- The SQL statements a cycle issues, in issue order. -/
inductive SqlEvent where
  | beginTx
  | deleteFrom (table : String)
  | rollback
  | commit
  | checkpoint
deriving DecidableEq

/-- Rows surviving `DELETE FROM t WHERE ingested_at < cutoff`. -/
def keepRows (rows : List Int) (cutoff : Int) : List Int :=
  rows.filter fun t => ¬ t < cutoff

/-- `RowsAffected` of that DELETE. -/
def rowsAffected (rows : List Int) (cutoff : Int) : Nat :=
  (rows.filter fun t => t < cutoff).length

/-- `Storage.runCleanup` (cleanup.go lines 313-382): skip when the
single-flight guard is held; otherwise compute
`cutoff = now − retentionHours`, BEGIN a transaction, DELETE old rows
from span_events, span_links, spans, logs, metrics in that order
(staged; applied only by a successful COMMIT), roll back and abort on a
failed statement, COMMIT, then CHECKPOINT — a checkpoint failure is
only logged, the result record is still stored.  Returns the new
tables, the new last-result record (`lastCleanup`) and the trace of
issued statements. -/
def runCleanup (db : TelemetryDB) (last : Option CleanupResult)
    (cleanupRunning : Bool) (now elapsed retentionHours : Int)
    (o : SqlOracle) : TelemetryDB × Option CleanupResult × List SqlEvent :=
  if cleanupRunning then (db, last, [])
  else
    let cutoff := now - retentionHours
    if !o.beginOk then (db, last, [.beginTx])
    else if !o.deleteOk 0 then
      (db, last, [.beginTx, .deleteFrom "span_events", .rollback])
    else if !o.deleteOk 1 then
      (db, last, [.beginTx, .deleteFrom "span_events", .deleteFrom "span_links",
        .rollback])
    else if !o.deleteOk 2 then
      (db, last, [.beginTx, .deleteFrom "span_events", .deleteFrom "span_links",
        .deleteFrom "spans", .rollback])
    else if !o.deleteOk 3 then
      (db, last, [.beginTx, .deleteFrom "span_events", .deleteFrom "span_links",
        .deleteFrom "spans", .deleteFrom "logs", .rollback])
    else if !o.deleteOk 4 then
      (db, last, [.beginTx, .deleteFrom "span_events", .deleteFrom "span_links",
        .deleteFrom "spans", .deleteFrom "logs", .deleteFrom "metrics", .rollback])
    else if !o.commitOk then
      (db, last, [.beginTx, .deleteFrom "span_events", .deleteFrom "span_links",
        .deleteFrom "spans", .deleteFrom "logs", .deleteFrom "metrics", .commit])
    else
      let result : CleanupResult :=
        { timestamp := now, duration := elapsed,
          spansDeleted := rowsAffected db.spans cutoff,
          spanEventsDeleted := rowsAffected db.spanEvents cutoff,
          spanLinksDeleted := rowsAffected db.spanLinks cutoff,
          logsDeleted := rowsAffected db.logs cutoff,
          metricsDeleted := rowsAffected db.metrics cutoff }
      ({ spanEvents := keepRows db.spanEvents cutoff,
         spanLinks := keepRows db.spanLinks cutoff,
         spans := keepRows db.spans cutoff,
         logs := keepRows db.logs cutoff,
         metrics := keepRows db.metrics cutoff },
       some result,
       [.beginTx, .deleteFrom "span_events", .deleteFrom "span_links",
        .deleteFrom "spans", .deleteFrom "logs", .deleteFrom "metrics",
        .commit, .checkpoint])

/-- A database with one old span row. -/
def cexDB : TelemetryDB :=
  { spanEvents := [], spanLinks := [], spans := [0], logs := [], metrics := [] }

/-- The oracle where only the final CHECKPOINT statement fails. -/
def ckptFailOracle : SqlOracle :=
  { beginOk := true, deleteOk := fun _ => true, commitOk := true, checkpointOk := false }

/-- The oracle where every statement succeeds. -/
def allOkOracle : SqlOracle :=
  { beginOk := true, deleteOk := fun _ => true, commitOk := true, checkpointOk := true }

/-- Counterexample to C4 as stated: when the cycle's final CHECKPOINT
statement fails (an SQL failure during the cycle), nothing is rolled
back — the old span row is still deleted — and the last-result record
`lastCleanup` is still replaced (here: from `none` to a result), because
the code only logs a checkpoint error after the commit. -/
theorem c4_run_cleanup_counterexample :
    ckptFailOracle.checkpointOk = false
    ∧ (runCleanup cexDB none false 100 1 24 ckptFailOracle).2.1
        = some { timestamp := 100, duration := 1, spansDeleted := 1,
                 spanEventsDeleted := 0, spanLinksDeleted := 0,
                 logsDeleted := 0, metricsDeleted := 0 }
    ∧ (runCleanup cexDB none false 100 1 24 ckptFailOracle).1
        = { spanEvents := [], spanLinks := [], spans := [], logs := [], metrics := [] } :=
  ⟨rfl, by decide, by decide⟩

/-- C4 (amended): with the single-flight guard free, a cycle whose
statements through COMMIT all succeed deletes exactly the rows with
`ingested_at < now − retention_hours` from span_events, span_links,
spans, logs and metrics in that order inside one transaction, records
the per-table counts in `lastCleanup`, and issues a final CHECKPOINT
(whose failure is only logged — the result record is stored either
way); and on a failure of BEGIN, any DELETE, or COMMIT the transaction
is rolled back: the tables and `lastCleanup` are unchanged. -/
theorem c4_run_cleanup (db : TelemetryDB) (last : Option CleanupResult)
    (now elapsed retentionHours : Int) (o : SqlOracle) :
    (o.beginOk = true → (∀ i, i < 5 → o.deleteOk i = true) → o.commitOk = true →
      runCleanup db last false now elapsed retentionHours o =
        ({ spanEvents := keepRows db.spanEvents (now - retentionHours),
           spanLinks := keepRows db.spanLinks (now - retentionHours),
           spans := keepRows db.spans (now - retentionHours),
           logs := keepRows db.logs (now - retentionHours),
           metrics := keepRows db.metrics (now - retentionHours) },
         some { timestamp := now, duration := elapsed,
                spansDeleted := rowsAffected db.spans (now - retentionHours),
                spanEventsDeleted := rowsAffected db.spanEvents (now - retentionHours),
                spanLinksDeleted := rowsAffected db.spanLinks (now - retentionHours),
                logsDeleted := rowsAffected db.logs (now - retentionHours),
                metricsDeleted := rowsAffected db.metrics (now - retentionHours) },
         [.beginTx, .deleteFrom "span_events", .deleteFrom "span_links",
          .deleteFrom "spans", .deleteFrom "logs", .deleteFrom "metrics",
          .commit, .checkpoint]))
    ∧ ((o.beginOk = false ∨ (∃ i, i < 5 ∧ o.deleteOk i = false) ∨ o.commitOk = false) →
        (runCleanup db last false now elapsed retentionHours o).1 = db
        ∧ (runCleanup db last false now elapsed retentionHours o).2.1 = last) := by
  constructor
  · intro hb hd hc
    have h0 := hd 0 (by norm_num)
    have h1 := hd 1 (by norm_num)
    have h2 := hd 2 (by norm_num)
    have h3 := hd 3 (by norm_num)
    have h4 := hd 4 (by norm_num)
    simp [runCleanup, hb, h0, h1, h2, h3, h4, hc]
  · intro hfail
    by_cases hb : o.beginOk
    · by_cases h0 : o.deleteOk 0
      · by_cases h1 : o.deleteOk 1
        · by_cases h2 : o.deleteOk 2
          · by_cases h3 : o.deleteOk 3
            · by_cases h4 : o.deleteOk 4
              · by_cases hc : o.commitOk
                · exfalso
                  rcases hfail with hf | ⟨i, hi, hf⟩ | hf
                  · rw [hb] at hf; cases hf
                  · interval_cases i
                    · rw [h0] at hf; cases hf
                    · rw [h1] at hf; cases hf
                    · rw [h2] at hf; cases hf
                    · rw [h3] at hf; cases hf
                    · rw [h4] at hf; cases hf
                  · rw [hc] at hf; cases hf
                · constructor <;> simp [runCleanup, hb, h0, h1, h2, h3, h4, hc]
              · constructor <;> simp [runCleanup, hb, h0, h1, h2, h3, h4]
            · constructor <;> simp [runCleanup, hb, h0, h1, h2, h3]
          · constructor <;> simp [runCleanup, hb, h0, h1, h2]
        · constructor <;> simp [runCleanup, hb, h0, h1]
      · constructor <;> simp [runCleanup, hb, h0]
    · constructor <;> simp [runCleanup, hb]

/-- Witness for C4 (amended): the all-statements-succeed conjunct
applied to the one-old-span database. -/
theorem c4_run_cleanup_witness :
    runCleanup cexDB none false 100 1 24 allOkOracle =
      ({ spanEvents := [], spanLinks := [], spans := [], logs := [], metrics := [] },
       some { timestamp := 100, duration := 1, spansDeleted := 1,
              spanEventsDeleted := 0, spanLinksDeleted := 0,
              logsDeleted := 0, metricsDeleted := 0 },
       [.beginTx, .deleteFrom "span_events", .deleteFrom "span_links",
        .deleteFrom "spans", .deleteFrom "logs", .deleteFrom "metrics",
        .commit, .checkpoint]) := by
  have h := (c4_run_cleanup cexDB none 100 1 24 allOkOracle).1
    rfl (fun i _ => rfl) rfl
  rw [h]
  decide

/-! ## Columnar appenders: shared pieces
(internal/storage/{traces,logs,metrics}.go)

Each `AppendRow` call either succeeds or fails with a driver error
message; the environment records assign an outcome to the n-th call of
each appender (`none` = success).  UUIDs and the shared `now` reading
are likewise environment inputs.  `time.Time` instants are identified
with their nanosecond counts (`unixNanoToTime 0` is the zero instant). -/

/-- `storage.unixNanoToTime` at this abstraction: the instant with that
nanosecond count (0 stays the zero instant). -/
def unixNanoToTime (nanos : Nat) : Nat := nanos

/-- `storage.StoreResult`. -/
structure StoreResult where
  accepted : Nat
  rejected : Nat
  errors : List String
deriving DecidableEq

/-- `StoreResult.AddError`: one more rejection, one more message. -/
def StoreResult.addError (r : StoreResult) (msg : String) : StoreResult :=
  { r with rejected := r.rejected + 1, errors := r.errors ++ [msg] }

/-- `storage.StorageError` restricted to the kind the appenders raise. -/
inductive StorageError where
  | infrastructure (msg : String)
deriving DecidableEq

/-- The six denormalized resource/scope columns every telemetry row
carries. -/
structure RowCtx where
  resourceAttrs : Option (List (String × String))
  resourceSchemaUrl : String
  scopeName : String
  scopeVersion : String
  scopeAttrs : Option (List (String × String))
  scopeSchemaUrl : String
deriving DecidableEq

/-- `commonv1.InstrumentationScope`. -/
structure ScopeInfo where
  name : String
  version : String
  attributes : List (String × AnyValue)

/-- `resourcev1.Resource` (the fields the code reads). -/
structure ResourceInfo where
  attributes : List (String × AnyValue)

/-- The per-resource/per-scope column computation shared by all three
appenders: attrs are nil when the resource/scope message is nil. -/
def mkRowCtx (resource : Option ResourceInfo) (resourceSchemaUrl : String)
    (scope : Option ScopeInfo) (scopeSchemaUrl : String) : RowCtx :=
  { resourceAttrs := match resource with
      | some r => flattenAttributes r.attributes
      | none => none,
    resourceSchemaUrl := resourceSchemaUrl,
    scopeName := match scope with | some s => s.name | none => "",
    scopeVersion := match scope with | some s => s.version | none => "",
    scopeAttrs := match scope with
      | some s => flattenAttributes s.attributes
      | none => none,
    scopeSchemaUrl := scopeSchemaUrl }

/-! ## Traces (internal/storage/traces.go) -/

/-- `tracev1.Status`. -/
structure SpanStatus where
  code : Int
  message : String

/-- `tracev1.Span.Event`. -/
structure SpanEvent where
  timeUnixNano : Nat
  name : String
  attributes : List (String × AnyValue)
  droppedAttributesCount : Nat

/-- `tracev1.Span.Link`. -/
structure SpanLink where
  traceId : List Nat
  spanId : List Nat
  traceState : String
  attributes : List (String × AnyValue)
  droppedAttributesCount : Nat

/-- `tracev1.Span` (the fields the code reads); `traceId`, `spanId`,
`parentSpanId` are raw byte slices, the nano timestamps are `uint64`
(below `U64`). -/
structure Span where
  traceId : List Nat
  spanId : List Nat
  parentSpanId : List Nat
  name : String
  kind : Int
  startTimeUnixNano : Nat
  endTimeUnixNano : Nat
  attributes : List (String × AnyValue)
  droppedAttributesCount : Nat
  events : List SpanEvent
  links : List SpanLink
  status : Option SpanStatus

/-- `tracev1.ScopeSpans`. -/
structure ScopeSpans where
  scope : Option ScopeInfo
  spans : List Span
  schemaUrl : String

/-- `tracev1.ResourceSpans`. -/
structure ResourceSpans where
  resource : Option ResourceInfo
  scopeSpans : List ScopeSpans
  schemaUrl : String

/-- `collectortracev1.ExportTraceServiceRequest`. -/
structure TraceRequest where
  resourceSpans : List ResourceSpans

/-- One row of the `spans` table, in `AppendRow` argument order
(status code/kind `int8` casts are identities on the enum ranges). -/
structure SpanRow where
  traceId : String
  spanId : String
  parentSpanId : String
  startTime : Nat
  endTime : Nat
  durationNs : Int
  name : String
  kind : Int
  statusCode : Int
  statusMessage : String
  ctx : RowCtx
  attrs : Option (List (String × String))
  droppedAttrsCount : Nat
  ingestedAt : Int
deriving DecidableEq

/-- One row of the `span_events` table. -/
structure EventRow where
  traceId : String
  spanId : String
  eventTime : Nat
  eventName : String
  eventAttrs : Option (List (String × String))
  droppedAttrsCount : Nat
  ingestedAt : Int
deriving DecidableEq

/-- One row of the `span_links` table. -/
structure LinkRow where
  traceId : String
  spanId : String
  linkedTraceId : String
  linkedSpanId : String
  traceState : String
  linkAttrs : Option (List (String × String))
  droppedAttrsCount : Nat
  ingestedAt : Int
deriving DecidableEq

/-- The environment of one `StoreTraces` call: connection and appender
creation, per-call append outcomes for each of the three appenders, and
the three flushes. -/
structure TraceEnv where
  connOk : Bool
  appendersOk : Bool
  spanErr : Nat → Option String
  eventErr : Nat → Option String
  linkErr : Nat → Option String
  flushSpansOk : Bool
  flushEventsOk : Bool
  flushLinksOk : Bool

/-- The running state of one `StoreTraces` call: how many appends each
appender has attempted, the rows appended so far, and the result. -/
structure TraceState where
  sIdx : Nat
  eIdx : Nat
  lIdx : Nat
  spanRows : List SpanRow
  eventRows : List EventRow
  linkRows : List LinkRow
  result : StoreResult

/-- The fresh state. -/
def initTraceState : TraceState :=
  { sIdx := 0, eIdx := 0, lIdx := 0, spanRows := [], eventRows := [],
    linkRows := [], result := { accepted := 0, rejected := 0, errors := [] } }

/-- The span row built for one span (traces.go lines 84-120). -/
def mkSpanRow (ctx : RowCtx) (sp : Span) (now : Int) : SpanRow :=
  { traceId := hexEncode sp.traceId,
    spanId := hexEncode sp.spanId,
    parentSpanId := hexEncode sp.parentSpanId,
    startTime := unixNanoToTime sp.startTimeUnixNano,
    endTime := unixNanoToTime sp.endTimeUnixNano,
    durationNs := toInt64 (uint64Sub sp.endTimeUnixNano sp.startTimeUnixNano),
    name := sp.name,
    kind := sp.kind,
    statusCode := match sp.status with | some st => st.code | none => 0,
    statusMessage := match sp.status with | some st => st.message | none => "",
    ctx := ctx,
    attrs := flattenAttributes sp.attributes,
    droppedAttrsCount := sp.droppedAttributesCount,
    ingestedAt := now }

/-- The event loop for one span (traces.go lines 127-142): an append
failure adds a diagnostic to `Errors` but does NOT reject the span. -/
def processEvents (env : TraceEnv) (traceId spanId : String) (now : Int) :
    List SpanEvent → TraceState → TraceState
  | [], st => st
  | ev :: evs, st =>
    match env.eventErr st.eIdx with
    | some e =>
      processEvents env traceId spanId now evs
        { st with
          eIdx := st.eIdx + 1,
          result := { st.result with
            errors := st.result.errors
              ++ ["event " ++ spanId ++ "/" ++ ev.name ++ ": " ++ e] } }
    | none =>
      processEvents env traceId spanId now evs
        { st with
          eIdx := st.eIdx + 1,
          eventRows := st.eventRows
            ++ [{ traceId := traceId,
                  spanId := spanId,
                  eventTime := unixNanoToTime ev.timeUnixNano,
                  eventName := ev.name,
                  eventAttrs := flattenAttributes ev.attributes,
                  droppedAttrsCount := ev.droppedAttributesCount,
                  ingestedAt := now }] }

/-- The link loop for one span (traces.go lines 144-160): same
non-rejecting failure handling as events. -/
def processLinks (env : TraceEnv) (traceId spanId : String) (now : Int) :
    List SpanLink → TraceState → TraceState
  | [], st => st
  | lk :: lks, st =>
    match env.linkErr st.lIdx with
    | some e =>
      processLinks env traceId spanId now lks
        { st with
          lIdx := st.lIdx + 1,
          result := { st.result with
            errors := st.result.errors ++ ["link " ++ spanId ++ ": " ++ e] } }
    | none =>
      processLinks env traceId spanId now lks
        { st with
          lIdx := st.lIdx + 1,
          linkRows := st.linkRows
            ++ [{ traceId := traceId,
                  spanId := spanId,
                  linkedTraceId := hexEncode lk.traceId,
                  linkedSpanId := hexEncode lk.spanId,
                  traceState := lk.traceState,
                  linkAttrs := flattenAttributes lk.attributes,
                  droppedAttrsCount := lk.droppedAttributesCount,
                  ingestedAt := now }] }

/-- The span loop (traces.go lines 84-161): a failed span append is
rejected via `AddError` and `continue` skips its events and links; a
successful one is accepted and its events and links are appended. -/
def processSpans (env : TraceEnv) (ctx : RowCtx) (now : Int) :
    List Span → TraceState → TraceState
  | [], st => st
  | sp :: sps, st =>
    let traceId := hexEncode sp.traceId
    let spanId := hexEncode sp.spanId
    match env.spanErr st.sIdx with
    | some e =>
      processSpans env ctx now sps
        { st with
          sIdx := st.sIdx + 1,
          result := st.result.addError ("span " ++ spanId ++ ": " ++ e) }
    | none =>
      let st1 : TraceState := { st with
        sIdx := st.sIdx + 1,
        spanRows := st.spanRows ++ [mkSpanRow ctx sp now],
        result := { st.result with
          accepted := st.result.accepted + 1 } }
      let st2 := processEvents env traceId spanId now sp.events st1
      let st3 := processLinks env traceId spanId now sp.links st2
      processSpans env ctx now sps st3

/-- The scope-spans loop (traces.go lines 73-162). -/
def processScopeSpans (env : TraceEnv) (resource : Option ResourceInfo)
    (resourceSchemaUrl : String) (now : Int) :
    List ScopeSpans → TraceState → TraceState
  | [], st => st
  | ss :: sss, st =>
    processScopeSpans env resource resourceSchemaUrl now sss
      (processSpans env (mkRowCtx resource resourceSchemaUrl ss.scope ss.schemaUrl)
        now ss.spans st)

/-- The resource-spans loop (traces.go lines 65-163). -/
def processResourceSpans (env : TraceEnv) (now : Int) :
    List ResourceSpans → TraceState → TraceState
  | [], st => st
  | rs :: rss, st =>
    processResourceSpans env now rss
      (processScopeSpans env rs.resource rs.schemaUrl now rs.scopeSpans st)

/-- `Storage.StoreTraces` (traces.go lines 14-177): empty requests
return the zero result; connection or appender-creation failure and any
flush failure are infrastructure errors; otherwise the rows appended
and the partial-success result are returned. -/
def storeTraces (env : TraceEnv) (req : TraceRequest) (now : Int) :
    Except StorageError (StoreResult × List SpanRow × List EventRow × List LinkRow) :=
  if req.resourceSpans.isEmpty then
    .ok ({ accepted := 0, rejected := 0, errors := [] }, [], [], [])
  else if !env.connOk then .error (.infrastructure "failed to get connection")
  else if !env.appendersOk then .error (.infrastructure "failed to create appenders")
  else
    let st := processResourceSpans env now req.resourceSpans initTraceState
    if !env.flushSpansOk then .error (.infrastructure "failed to flush spans")
    else if !env.flushEventsOk then .error (.infrastructure "failed to flush events")
    else if !env.flushLinksOk then .error (.infrastructure "failed to flush links")
    else .ok (st.result, st.spanRows, st.eventRows, st.linkRows)

/-- The spans of a trace request, in payload order. -/
def allSpans (req : TraceRequest) : List Span :=
  req.resourceSpans.flatMap fun rs => rs.scopeSpans.flatMap fun ss => ss.spans

/-- The number of spans in a trace request. -/
def countSpans (req : TraceRequest) : Nat := (allSpans req).length

/-! ## Trace accounting and row-shape lemmas -/

theorem processEvents_preserve (env : TraceEnv) (tid sid : String) (now : Int) :
    ∀ (evs : List SpanEvent) (st : TraceState),
      (processEvents env tid sid now evs st).spanRows = st.spanRows
      ∧ (processEvents env tid sid now evs st).result.accepted = st.result.accepted
      ∧ (processEvents env tid sid now evs st).result.rejected = st.result.rejected := by
  intro evs
  induction evs with
  | nil => intro st; exact ⟨rfl, rfl, rfl⟩
  | cons ev evs ih =>
    intro st
    simp only [processEvents]
    cases env.eventErr st.eIdx with
    | some e => exact ih _
    | none => exact ih _

theorem processLinks_preserve (env : TraceEnv) (tid sid : String) (now : Int) :
    ∀ (lks : List SpanLink) (st : TraceState),
      (processLinks env tid sid now lks st).spanRows = st.spanRows
      ∧ (processLinks env tid sid now lks st).result.accepted = st.result.accepted
      ∧ (processLinks env tid sid now lks st).result.rejected = st.result.rejected := by
  intro lks
  induction lks with
  | nil => intro st; exact ⟨rfl, rfl, rfl⟩
  | cons lk lks ih =>
    intro st
    simp only [processLinks]
    cases env.linkErr st.lIdx with
    | some e => exact ih _
    | none => exact ih _

theorem processSpans_count (env : TraceEnv) (ctx : RowCtx) (now : Int) :
    ∀ (sps : List Span) (st : TraceState),
      (processSpans env ctx now sps st).result.accepted
        + (processSpans env ctx now sps st).result.rejected
      = st.result.accepted + st.result.rejected + sps.length := by
  intro sps
  induction sps with
  | nil => intro st; simp [processSpans]
  | cons sp sps ih =>
    intro st
    simp only [processSpans, List.length_cons]
    cases env.spanErr st.sIdx with
    | some e =>
      rw [ih]
      show st.result.accepted + (st.result.rejected + 1) + sps.length
        = st.result.accepted + st.result.rejected + (sps.length + 1)
      omega
    | none =>
      rw [ih]
      obtain ⟨-, hl1, hl2⟩ := processLinks_preserve env _ _ now sp.links _
      rw [hl1, hl2]
      obtain ⟨-, he1, he2⟩ := processEvents_preserve env _ _ now sp.events _
      rw [he1, he2]
      show st.result.accepted + 1 + st.result.rejected + sps.length
        = st.result.accepted + st.result.rejected + (sps.length + 1)
      omega

theorem processScopeSpans_count (env : TraceEnv) (resource : Option ResourceInfo)
    (u : String) (now : Int) :
    ∀ (sss : List ScopeSpans) (st : TraceState),
      (processScopeSpans env resource u now sss st).result.accepted
        + (processScopeSpans env resource u now sss st).result.rejected
      = st.result.accepted + st.result.rejected
        + (sss.flatMap fun ss => ss.spans).length := by
  intro sss
  induction sss with
  | nil => intro st; simp [processScopeSpans]
  | cons ss sss ih =>
    intro st
    simp only [processScopeSpans, List.flatMap_cons, List.length_append]
    rw [ih, processSpans_count]
    omega

theorem processResourceSpans_count (env : TraceEnv) (now : Int) :
    ∀ (rss : List ResourceSpans) (st : TraceState),
      (processResourceSpans env now rss st).result.accepted
        + (processResourceSpans env now rss st).result.rejected
      = st.result.accepted + st.result.rejected
        + (rss.flatMap fun rs => rs.scopeSpans.flatMap fun ss => ss.spans).length := by
  intro rss
  induction rss with
  | nil => intro st; simp [processResourceSpans]
  | cons rs rss ih =>
    intro st
    simp only [processResourceSpans, List.flatMap_cons, List.length_append]
    rw [ih, processScopeSpans_count]
    omega

/-- The row fields of a span row that are functions of its span alone. -/
def rowMatches (sp : Span) (r : SpanRow) : Prop :=
  r.traceId = hexEncode sp.traceId ∧ r.spanId = hexEncode sp.spanId
  ∧ r.startTime = sp.startTimeUnixNano ∧ r.endTime = sp.endTimeUnixNano
  ∧ r.durationNs = toInt64 (uint64Sub sp.endTimeUnixNano sp.startTimeUnixNano)

theorem processSpans_rows (env : TraceEnv) (ctx : RowCtx) (now : Int) :
    ∀ (sps : List Span) (st : TraceState) (r : SpanRow),
      r ∈ (processSpans env ctx now sps st).spanRows →
      r ∈ st.spanRows ∨ ∃ sp ∈ sps, rowMatches sp r := by
  intro sps
  induction sps with
  | nil => intro st r h; exact Or.inl h
  | cons sp sps ih =>
    intro st r h
    simp only [processSpans] at h
    cases hsp : env.spanErr st.sIdx with
    | some e =>
      rw [hsp] at h
      rcases ih _ r h with h2 | ⟨sp2, hm, hr⟩
      · exact Or.inl h2
      · exact Or.inr ⟨sp2, List.mem_cons_of_mem _ hm, hr⟩
    | none =>
      rw [hsp] at h
      rcases ih _ r h with h2 | ⟨sp2, hm, hr⟩
      · rw [(processLinks_preserve env _ _ now _ _).1,
          (processEvents_preserve env _ _ now _ _).1] at h2
        rcases List.mem_append.mp h2 with h3 | h3
        · exact Or.inl h3
        · have hre : r = mkSpanRow ctx sp now := List.mem_singleton.mp h3
          subst hre
          exact Or.inr ⟨sp, List.mem_cons_self _ _, rfl, rfl, rfl, rfl, rfl⟩
      · exact Or.inr ⟨sp2, List.mem_cons_of_mem _ hm, hr⟩

theorem processScopeSpans_rows (env : TraceEnv) (resource : Option ResourceInfo)
    (u : String) (now : Int) :
    ∀ (sss : List ScopeSpans) (st : TraceState) (r : SpanRow),
      r ∈ (processScopeSpans env resource u now sss st).spanRows →
      r ∈ st.spanRows ∨ ∃ sp ∈ (sss.flatMap fun ss => ss.spans), rowMatches sp r := by
  intro sss
  induction sss with
  | nil => intro st r h; exact Or.inl h
  | cons ss sss ih =>
    intro st r h
    simp only [processScopeSpans] at h
    rcases ih _ r h with h2 | ⟨sp2, hm, hr⟩
    · rcases processSpans_rows env _ now _ _ r h2 with h3 | ⟨sp2, hm, hr⟩
      · exact Or.inl h3
      · exact Or.inr ⟨sp2, by simp only [List.flatMap_cons, List.mem_append]; exact Or.inl hm, hr⟩
    · exact Or.inr ⟨sp2, by simp only [List.flatMap_cons, List.mem_append]; exact Or.inr hm, hr⟩

theorem processResourceSpans_rows (env : TraceEnv) (now : Int) :
    ∀ (rss : List ResourceSpans) (st : TraceState) (r : SpanRow),
      r ∈ (processResourceSpans env now rss st).spanRows →
      r ∈ st.spanRows
      ∨ ∃ sp ∈ (rss.flatMap fun rs => rs.scopeSpans.flatMap fun ss => ss.spans),
          rowMatches sp r := by
  intro rss
  induction rss with
  | nil => intro st r h; exact Or.inl h
  | cons rs rss ih =>
    intro st r h
    simp only [processResourceSpans] at h
    rcases ih _ r h with h2 | ⟨sp2, hm, hr⟩
    · rcases processScopeSpans_rows env _ _ now _ _ r h2 with h3 | ⟨sp2, hm, hr⟩
      · exact Or.inl h3
      · exact Or.inr ⟨sp2, by simp only [List.flatMap_cons, List.mem_append]; exact Or.inl hm, hr⟩
    · exact Or.inr ⟨sp2, by simp only [List.flatMap_cons, List.mem_append]; exact Or.inr hm, hr⟩

/-- Every span row of a successful `StoreTraces` stems from a span of
the request, with ids hex-encoded and the duration the two's-complement
difference of the raw timestamps. -/
theorem storeTraces_rows (env : TraceEnv) (req : TraceRequest) (now : Int)
    (res : StoreResult) (sr : List SpanRow) (er : List EventRow) (lr : List LinkRow)
    (hok : storeTraces env req now = .ok (res, sr, er, lr)) :
    ∀ r ∈ sr, ∃ sp ∈ allSpans req, rowMatches sp r := by
  intro r hr
  unfold storeTraces at hok
  by_cases hempty : req.resourceSpans.isEmpty
  · rw [if_pos hempty] at hok
    injection hok with hok
    cases hok
    cases hr
  · rw [if_neg hempty] at hok
    by_cases hconn : env.connOk
    · rw [hconn] at hok
      by_cases happ : env.appendersOk
      · rw [happ] at hok
        simp only [Bool.not_true] at hok
        by_cases hf1 : env.flushSpansOk
        · rw [hf1] at hok
          by_cases hf2 : env.flushEventsOk
          · rw [hf2] at hok
            by_cases hf3 : env.flushLinksOk
            · rw [hf3] at hok
              simp only [Bool.not_true, if_neg] at hok
              injection hok with hok
              cases hok
              rcases processResourceSpans_rows env now _ _ r hr with h2 | ⟨sp2, hm, hrm⟩
              · cases h2
              · exact ⟨sp2, hm, hrm⟩
            · simp only [Bool.not_eq_true] at hf3
              rw [hf3] at hok
              simp at hok
          · simp only [Bool.not_eq_true] at hf2
            rw [hf2] at hok
            simp at hok
        · simp only [Bool.not_eq_true] at hf1
          rw [hf1] at hok
          simp at hok
      · simp only [Bool.not_eq_true] at happ
        rw [happ] at hok
        simp at hok
    · simp only [Bool.not_eq_true] at hconn
      rw [hconn] at hok
      simp at hok

/-! ## Logs (internal/storage/logs.go) -/

/-- `logsv1.LogRecord` (the fields the code reads); a nil body pointer
is `AnyValue.vnull`. -/
structure LogRecord where
  timeUnixNano : Nat
  observedTimeUnixNano : Nat
  severityNumber : Int
  severityText : String
  body : AnyValue
  attributes : List (String × AnyValue)
  droppedAttributesCount : Nat
  flags : Nat
  traceId : List Nat
  spanId : List Nat

/-- `logsv1.ScopeLogs`. -/
structure ScopeLogs where
  scope : Option ScopeInfo
  logRecords : List LogRecord
  schemaUrl : String

/-- `logsv1.ResourceLogs`. -/
structure ResourceLogs where
  resource : Option ResourceInfo
  scopeLogs : List ScopeLogs
  schemaUrl : String

/-- `collectorlogsv1.ExportLogsServiceRequest`. -/
structure LogsRequest where
  resourceLogs : List ResourceLogs

/-- One row of the `logs` table, in `AppendRow` argument order. -/
structure LogRow where
  logId : String
  traceId : String
  spanId : String
  timestamp : Nat
  observedTimestamp : Nat
  severityNumber : Int
  severityText : String
  body : String
  bodyFields : Option (List (String × String))
  ctx : RowCtx
  attrs : Option (List (String × String))
  droppedAttrsCount : Nat
  flags : Nat
  ingestedAt : Int
deriving DecidableEq

/-- The environment of one `StoreLogs` call: the generated UUIDs and
the append outcome, both indexed by log-record position. -/
structure LogsEnv where
  connOk : Bool
  appenderOk : Bool
  uuids : Nat → String
  appendErr : Nat → Option String
  flushOk : Bool

/-- The running state of one `StoreLogs` call. -/
structure LogsState where
  idx : Nat
  rows : List LogRow
  result : StoreResult

/-- The log-record loop (logs.go lines 447-477). -/
def processLogRecords (env : LogsEnv) (ctx : RowCtx) (now : Int) :
    List LogRecord → LogsState → LogsState
  | [], st => st
  | rec :: recs, st =>
    let logID := env.uuids st.idx
    match env.appendErr st.idx with
    | some e =>
      processLogRecords env ctx now recs
        { st with
          idx := st.idx + 1,
          result := st.result.addError ("log " ++ logID ++ ": " ++ e) }
    | none =>
      processLogRecords env ctx now recs
        { st with
          idx := st.idx + 1,
          rows := st.rows
            ++ [{ logId := logID,
                  traceId := hexEncode rec.traceId,
                  spanId := hexEncode rec.spanId,
                  timestamp := unixNanoToTime rec.timeUnixNano,
                  observedTimestamp := unixNanoToTime rec.observedTimeUnixNano,
                  severityNumber := rec.severityNumber,
                  severityText := rec.severityText,
                  body := (extractLogBody rec.body).1,
                  bodyFields := (extractLogBody rec.body).2,
                  ctx := ctx,
                  attrs := flattenAttributes rec.attributes,
                  droppedAttrsCount := rec.droppedAttributesCount,
                  flags := rec.flags,
                  ingestedAt := now }],
          result := { st.result with
            accepted := st.result.accepted + 1 } }

/-- The scope-logs loop (logs.go lines 436-478). -/
def processScopeLogs (env : LogsEnv) (resource : Option ResourceInfo)
    (resourceSchemaUrl : String) (now : Int) :
    List ScopeLogs → LogsState → LogsState
  | [], st => st
  | sl :: sls, st =>
    processScopeLogs env resource resourceSchemaUrl now sls
      (processLogRecords env (mkRowCtx resource resourceSchemaUrl sl.scope sl.schemaUrl)
        now sl.logRecords st)

/-- The resource-logs loop (logs.go lines 428-479). -/
def processResourceLogs (env : LogsEnv) (now : Int) :
    List ResourceLogs → LogsState → LogsState
  | [], st => st
  | rl :: rls, st =>
    processResourceLogs env now rls
      (processScopeLogs env rl.resource rl.schemaUrl now rl.scopeLogs st)

/-- `Storage.StoreLogs` (logs.go lines 398-486). -/
def storeLogs (env : LogsEnv) (req : LogsRequest) (now : Int) :
    Except StorageError (StoreResult × List LogRow) :=
  if req.resourceLogs.isEmpty then
    .ok ({ accepted := 0, rejected := 0, errors := [] }, [])
  else if !env.connOk then .error (.infrastructure "failed to get connection")
  else if !env.appenderOk then .error (.infrastructure "failed to create appender")
  else
    let st := processResourceLogs env now req.resourceLogs
      { idx := 0, rows := [], result := { accepted := 0, rejected := 0, errors := [] } }
    if !env.flushOk then .error (.infrastructure "failed to flush logs")
    else .ok (st.result, st.rows)

/-- The number of log records in a logs request. -/
def countLogRecords (req : LogsRequest) : Nat :=
  (req.resourceLogs.flatMap fun rl => rl.scopeLogs.flatMap fun sl => sl.logRecords).length

/-! ## Metrics (internal/storage/metrics.go) -/

/-- `MetricTypeGauge = 1`. -/
def MetricTypeGauge : Int := 1

/-- `MetricTypeSum = 2`. -/
def MetricTypeSum : Int := 2

/-- `MetricTypeHistogram = 3`. -/
def MetricTypeHistogram : Int := 3

/-- `metricsv1.NumberDataPoint.Value`: the oneof may be unset, in which
case the switch in `appendNumberDataPoints` leaves `value = 0.0`. -/
inductive NumberValue where
  | asDouble (d : Float64)
  | asInt (i : Int)
  | unset

/-- `metricsv1.NumberDataPoint` (the fields the code reads). -/
structure NumberDataPoint where
  timeUnixNano : Nat
  value : NumberValue
  attributes : List (String × AnyValue)

/-- `metricsv1.HistogramDataPoint` (the fields the code reads);
`sum` is an optional proto field, `GetSum()` is 0 when unset. -/
structure HistogramDataPoint where
  timeUnixNano : Nat
  count : Nat
  sum : Option Float64
  bucketCounts : List Nat
  explicitBounds : List Float64
  attributes : List (String × AnyValue)

/-- `metricsv1.SummaryDataPoint` (never read by the code). -/
structure SummaryDataPoint where
  timeUnixNano : Nat

/-- `metricsv1.Metric.Data`: the oneof over metric kinds. `unset` is a
nil `Data` field. -/
inductive MetricData where
  | gauge (dataPoints : List NumberDataPoint)
  | sum (dataPoints : List NumberDataPoint) (isMonotonic : Bool)
  | histogram (dataPoints : List HistogramDataPoint)
  | summary (dataPoints : List SummaryDataPoint)
  | unset

/-- `metricsv1.Metric`. -/
structure Metric where
  name : String
  description : String
  unit : String
  data : MetricData

/-- `metricsv1.ScopeMetrics`. -/
structure ScopeMetrics where
  scope : Option ScopeInfo
  metrics : List Metric
  schemaUrl : String

/-- `metricsv1.ResourceMetrics`. -/
structure ResourceMetrics where
  resource : Option ResourceInfo
  scopeMetrics : List ScopeMetrics
  schemaUrl : String

/-- `collectormetricsv1.ExportMetricsServiceRequest`. -/
structure MetricsRequest where
  resourceMetrics : List ResourceMetrics

/-- One row of the `metrics` table, in `AppendRow` argument order. -/
structure MetricRow where
  metricId : String
  timestamp : Nat
  name : String
  description : String
  unit : String
  mtype : Int
  value : Float64
  isMonotonic : Bool
  histogramJson : String
  ctx : RowCtx
  attrs : Option (List (String × String))
  ingestedAt : Int
deriving DecidableEq

/-- Go's `float64(v.AsInt)` conversion on the abstracted double: the
decimal text of the integer (exact for magnitudes below `2^53`; the
rounding of larger integers is not modelled — no claim observes the
`value` column). -/
def float64OfInt (i : Int) : Float64 := ⟨toString i⟩

/-- The `switch dp.Value` of `appendNumberDataPoints`: doubles pass
through, ints are converted, an unset oneof leaves the zero value. -/
def numberValueToFloat : NumberValue → Float64
  | .asDouble d => d
  | .asInt i => float64OfInt i
  | .unset => float64Zero

/-- `json.Marshal` of the `storage.Histogram` struct: fields in
declaration order count, sum, bucket_counts, explicit_bounds.  (An
absent repeated `explicit_bounds` field is a nil Go slice and would
marshal as `null`; the model renders `[]` — no claim reads
`histogram_json`.) -/
def histogramJSON (count : Int) (sum : Float64) (bucketCounts : List Int)
    (explicitBounds : List Float64) : String :=
  "\x7b\"count\":" ++ formatInt count
    ++ ",\"sum\":" ++ formatFloat sum
    ++ ",\"bucket_counts\":" ++ jsonMarshal (.jarr (bucketCounts.map JsonValue.jint))
    ++ ",\"explicit_bounds\":" ++ jsonMarshal (.jarr (explicitBounds.map JsonValue.jdbl))
    ++ "\x7d"

/-- The environment of one `StoreMetrics` call. -/
structure MetricsEnv where
  connOk : Bool
  appenderOk : Bool
  uuids : Nat → String
  appendErr : Nat → Option String
  flushOk : Bool

/-- The running state of one `StoreMetrics` call. -/
structure MetricsState where
  idx : Nat
  rows : List MetricRow
  result : StoreResult

/-- `Storage.appendNumberDataPoints` (metrics.go lines 124-174):
Gauge and Sum data points, integer values coerced to double. -/
def appendNumberDataPoints (env : MetricsEnv) (m : Metric) (metricType : Int)
    (isMonotonic : Bool) (ctx : RowCtx) (now : Int) :
    List NumberDataPoint → MetricsState → MetricsState
  | [], st => st
  | dp :: dps, st =>
    let metricID := env.uuids st.idx
    match env.appendErr st.idx with
    | some e =>
      appendNumberDataPoints env m metricType isMonotonic ctx now dps
        { st with
          idx := st.idx + 1,
          result := st.result.addError
            ("metric " ++ m.name ++ "/" ++ metricID ++ ": " ++ e) }
    | none =>
      appendNumberDataPoints env m metricType isMonotonic ctx now dps
        { st with
          idx := st.idx + 1,
          rows := st.rows
            ++ [{ metricId := metricID,
                  timestamp := unixNanoToTime dp.timeUnixNano,
                  name := m.name,
                  description := m.description,
                  unit := m.unit,
                  mtype := metricType,
                  value := numberValueToFloat dp.value,
                  isMonotonic := isMonotonic,
                  histogramJson := "",
                  ctx := ctx,
                  attrs := flattenAttributes dp.attributes,
                  ingestedAt := now }],
          result := { st.result with
            accepted := st.result.accepted + 1 } }

/-- `Storage.appendHistogramDataPoints` (metrics.go lines 177-230):
`value` is written as 0.0, the histogram payload as JSON; the `uint64`
count and bucket counts are cast to `int64`. -/
def appendHistogramDataPoints (env : MetricsEnv) (m : Metric) (ctx : RowCtx)
    (now : Int) : List HistogramDataPoint → MetricsState → MetricsState
  | [], st => st
  | dp :: dps, st =>
    let metricID := env.uuids st.idx
    match env.appendErr st.idx with
    | some e =>
      appendHistogramDataPoints env m ctx now dps
        { st with
          idx := st.idx + 1,
          result := st.result.addError
            ("histogram " ++ m.name ++ "/" ++ metricID ++ ": " ++ e) }
    | none =>
      appendHistogramDataPoints env m ctx now dps
        { st with
          idx := st.idx + 1,
          rows := st.rows
            ++ [{ metricId := metricID,
                  timestamp := unixNanoToTime dp.timeUnixNano,
                  name := m.name,
                  description := m.description,
                  unit := m.unit,
                  mtype := MetricTypeHistogram,
                  value := float64Zero,
                  isMonotonic := false,
                  histogramJson := histogramJSON (toInt64 dp.count)
                    (dp.sum.getD float64Zero) (dp.bucketCounts.map toInt64)
                    dp.explicitBounds,
                  ctx := ctx,
                  attrs := flattenAttributes dp.attributes,
                  ingestedAt := now }],
          result := { st.result with
            accepted := st.result.accepted + 1 } }

/-- `Storage.appendMetricDataPoints` (metrics.go lines 97-121): the
dispatch on the metric kind.  Summary (and an unset oneof) fall through
the switch: their data points are neither appended nor rejected. -/
def appendMetricDataPoints (env : MetricsEnv) (m : Metric) (ctx : RowCtx)
    (now : Int) (st : MetricsState) : MetricsState :=
  match m.data with
  | .gauge dps => appendNumberDataPoints env m MetricTypeGauge false ctx now dps st
  | .sum dps mono => appendNumberDataPoints env m MetricTypeSum mono ctx now dps st
  | .histogram dps => appendHistogramDataPoints env m ctx now dps st
  | .summary _ => st
  | .unset => st

/-- The metric loop (metrics.go lines 82-85). -/
def processMetrics (env : MetricsEnv) (ctx : RowCtx) (now : Int) :
    List Metric → MetricsState → MetricsState
  | [], st => st
  | m :: ms, st =>
    processMetrics env ctx now ms (appendMetricDataPoints env m ctx now st)

/-- The scope-metrics loop (metrics.go lines 71-86). -/
def processScopeMetrics (env : MetricsEnv) (resource : Option ResourceInfo)
    (resourceSchemaUrl : String) (now : Int) :
    List ScopeMetrics → MetricsState → MetricsState
  | [], st => st
  | sm :: sms, st =>
    processScopeMetrics env resource resourceSchemaUrl now sms
      (processMetrics env (mkRowCtx resource resourceSchemaUrl sm.scope sm.schemaUrl)
        now sm.metrics st)

/-- The resource-metrics loop (metrics.go lines 63-87). -/
def processResourceMetrics (env : MetricsEnv) (now : Int) :
    List ResourceMetrics → MetricsState → MetricsState
  | [], st => st
  | rm :: rms, st =>
    processResourceMetrics env now rms
      (processScopeMetrics env rm.resource rm.schemaUrl now rm.scopeMetrics st)

/-- `Storage.StoreMetrics` (metrics.go lines 33-94). -/
def storeMetrics (env : MetricsEnv) (req : MetricsRequest) (now : Int) :
    Except StorageError (StoreResult × List MetricRow) :=
  if req.resourceMetrics.isEmpty then
    .ok ({ accepted := 0, rejected := 0, errors := [] }, [])
  else if !env.connOk then .error (.infrastructure "failed to get connection")
  else if !env.appenderOk then .error (.infrastructure "failed to create appender")
  else
    let st := processResourceMetrics env now req.resourceMetrics
      { idx := 0, rows := [], result := { accepted := 0, rejected := 0, errors := [] } }
    if !env.flushOk then .error (.infrastructure "failed to flush metrics")
    else .ok (st.result, st.rows)

/-- All data points a metric carries, summary included. -/
def metricDataPoints : MetricData → Nat
  | .gauge dps => dps.length
  | .sum dps _ => dps.length
  | .histogram dps => dps.length
  | .summary dps => dps.length
  | .unset => 0

/-- The data points the appender supports (gauge, sum, histogram);
summary points are skipped by the dispatch. -/
def supportedMetricPoints : MetricData → Nat
  | .gauge dps => dps.length
  | .sum dps _ => dps.length
  | .histogram dps => dps.length
  | .summary _ => 0
  | .unset => 0

/-- The total number of metric data points in a request (summary
included). -/
def countMetricPoints (req : MetricsRequest) : Nat :=
  ((req.resourceMetrics.flatMap fun rm => rm.scopeMetrics.flatMap fun sm => sm.metrics).map
    fun m => metricDataPoints m.data).sum

/-- The number of supported (gauge/sum/histogram) metric data points in
a request. -/
def countSupportedMetricPoints (req : MetricsRequest) : Nat :=
  ((req.resourceMetrics.flatMap fun rm => rm.scopeMetrics.flatMap fun sm => sm.metrics).map
    fun m => supportedMetricPoints m.data).sum

/-! ## Accounting lemmas for the three stores -/

theorem length_hexEncode (bs : List Nat) :
    (hexEncode bs).length = 2 * bs.length := by
  unfold hexEncode
  by_cases h : bs = []
  · simp [h]
  · rw [if_neg h]
    show (String.mk (hexEncodeBytes bs)).length = _
    simpa using length_hexEncodeBytes bs

theorem storeTraces_count (env : TraceEnv) (req : TraceRequest) (now : Int)
    (res : StoreResult) (sr : List SpanRow) (er : List EventRow) (lr : List LinkRow)
    (hok : storeTraces env req now = .ok (res, sr, er, lr)) :
    res.accepted + res.rejected = countSpans req := by
  unfold storeTraces at hok
  by_cases hempty : req.resourceSpans.isEmpty
  · rw [if_pos hempty] at hok
    injection hok with hok
    cases hok
    have hnil : req.resourceSpans = [] := List.isEmpty_iff.mp hempty
    simp [countSpans, allSpans, hnil]
  · rw [if_neg hempty] at hok
    by_cases hconn : env.connOk
    · rw [hconn] at hok
      by_cases happ : env.appendersOk
      · rw [happ] at hok
        simp only [Bool.not_true] at hok
        by_cases hf1 : env.flushSpansOk
        · rw [hf1] at hok
          by_cases hf2 : env.flushEventsOk
          · rw [hf2] at hok
            by_cases hf3 : env.flushLinksOk
            · rw [hf3] at hok
              simp only [Bool.not_true, if_neg] at hok
              injection hok with hok
              cases hok
              rw [show countSpans req
                  = (req.resourceSpans.flatMap
                      fun rs => rs.scopeSpans.flatMap fun ss => ss.spans).length
                from rfl]
              rw [processResourceSpans_count]
              show 0 + 0 + _ = _
              omega
            · simp only [Bool.not_eq_true] at hf3
              rw [hf3] at hok
              simp at hok
          · simp only [Bool.not_eq_true] at hf2
            rw [hf2] at hok
            simp at hok
        · simp only [Bool.not_eq_true] at hf1
          rw [hf1] at hok
          simp at hok
      · simp only [Bool.not_eq_true] at happ
        rw [happ] at hok
        simp at hok
    · simp only [Bool.not_eq_true] at hconn
      rw [hconn] at hok
      simp at hok

theorem processLogRecords_count (env : LogsEnv) (ctx : RowCtx) (now : Int) :
    ∀ (recs : List LogRecord) (st : LogsState),
      (processLogRecords env ctx now recs st).result.accepted
        + (processLogRecords env ctx now recs st).result.rejected
      = st.result.accepted + st.result.rejected + recs.length := by
  intro recs
  induction recs with
  | nil => intro st; simp [processLogRecords]
  | cons rec recs ih =>
    intro st
    simp only [processLogRecords, List.length_cons]
    cases env.appendErr st.idx with
    | some e =>
      rw [ih]
      show st.result.accepted + (st.result.rejected + 1) + recs.length
        = st.result.accepted + st.result.rejected + (recs.length + 1)
      omega
    | none =>
      rw [ih]
      show st.result.accepted + 1 + st.result.rejected + recs.length
        = st.result.accepted + st.result.rejected + (recs.length + 1)
      omega

theorem processScopeLogs_count (env : LogsEnv) (resource : Option ResourceInfo)
    (u : String) (now : Int) :
    ∀ (sls : List ScopeLogs) (st : LogsState),
      (processScopeLogs env resource u now sls st).result.accepted
        + (processScopeLogs env resource u now sls st).result.rejected
      = st.result.accepted + st.result.rejected
        + (sls.flatMap fun sl => sl.logRecords).length := by
  intro sls
  induction sls with
  | nil => intro st; simp [processScopeLogs]
  | cons sl sls ih =>
    intro st
    simp only [processScopeLogs, List.flatMap_cons, List.length_append]
    rw [ih, processLogRecords_count]
    omega

theorem processResourceLogs_count (env : LogsEnv) (now : Int) :
    ∀ (rls : List ResourceLogs) (st : LogsState),
      (processResourceLogs env now rls st).result.accepted
        + (processResourceLogs env now rls st).result.rejected
      = st.result.accepted + st.result.rejected
        + (rls.flatMap fun rl => rl.scopeLogs.flatMap fun sl => sl.logRecords).length := by
  intro rls
  induction rls with
  | nil => intro st; simp [processResourceLogs]
  | cons rl rls ih =>
    intro st
    simp only [processResourceLogs, List.flatMap_cons, List.length_append]
    rw [ih, processScopeLogs_count]
    omega

theorem storeLogs_count (env : LogsEnv) (req : LogsRequest) (now : Int)
    (res : StoreResult) (rows : List LogRow)
    (hok : storeLogs env req now = .ok (res, rows)) :
    res.accepted + res.rejected = countLogRecords req := by
  unfold storeLogs at hok
  by_cases hempty : req.resourceLogs.isEmpty
  · rw [if_pos hempty] at hok
    injection hok with hok
    cases hok
    have hnil : req.resourceLogs = [] := List.isEmpty_iff.mp hempty
    simp [countLogRecords, hnil]
  · rw [if_neg hempty] at hok
    by_cases hconn : env.connOk
    · rw [hconn] at hok
      by_cases happ : env.appenderOk
      · rw [happ] at hok
        simp only [Bool.not_true] at hok
        by_cases hf : env.flushOk
        · rw [hf] at hok
          simp only [Bool.not_true, if_neg] at hok
          injection hok with hok
          cases hok
          rw [show countLogRecords req
              = (req.resourceLogs.flatMap
                  fun rl => rl.scopeLogs.flatMap fun sl => sl.logRecords).length
            from rfl]
          rw [processResourceLogs_count]
          show 0 + 0 + _ = _
          omega
        · simp only [Bool.not_eq_true] at hf
          rw [hf] at hok
          simp at hok
      · simp only [Bool.not_eq_true] at happ
        rw [happ] at hok
        simp at hok
    · simp only [Bool.not_eq_true] at hconn
      rw [hconn] at hok
      simp at hok

theorem appendNumberDataPoints_count (env : MetricsEnv) (m : Metric)
    (t : Int) (mono : Bool) (ctx : RowCtx) (now : Int) :
    ∀ (dps : List NumberDataPoint) (st : MetricsState),
      (appendNumberDataPoints env m t mono ctx now dps st).result.accepted
        + (appendNumberDataPoints env m t mono ctx now dps st).result.rejected
      = st.result.accepted + st.result.rejected + dps.length := by
  intro dps
  induction dps with
  | nil => intro st; simp [appendNumberDataPoints]
  | cons dp dps ih =>
    intro st
    simp only [appendNumberDataPoints, List.length_cons]
    cases env.appendErr st.idx with
    | some e =>
      rw [ih]
      show st.result.accepted + (st.result.rejected + 1) + dps.length
        = st.result.accepted + st.result.rejected + (dps.length + 1)
      omega
    | none =>
      rw [ih]
      show st.result.accepted + 1 + st.result.rejected + dps.length
        = st.result.accepted + st.result.rejected + (dps.length + 1)
      omega

theorem appendHistogramDataPoints_count (env : MetricsEnv) (m : Metric)
    (ctx : RowCtx) (now : Int) :
    ∀ (dps : List HistogramDataPoint) (st : MetricsState),
      (appendHistogramDataPoints env m ctx now dps st).result.accepted
        + (appendHistogramDataPoints env m ctx now dps st).result.rejected
      = st.result.accepted + st.result.rejected + dps.length := by
  intro dps
  induction dps with
  | nil => intro st; simp [appendHistogramDataPoints]
  | cons dp dps ih =>
    intro st
    simp only [appendHistogramDataPoints, List.length_cons]
    cases env.appendErr st.idx with
    | some e =>
      rw [ih]
      show st.result.accepted + (st.result.rejected + 1) + dps.length
        = st.result.accepted + st.result.rejected + (dps.length + 1)
      omega
    | none =>
      rw [ih]
      show st.result.accepted + 1 + st.result.rejected + dps.length
        = st.result.accepted + st.result.rejected + (dps.length + 1)
      omega

theorem appendMetricDataPoints_count (env : MetricsEnv) (m : Metric)
    (ctx : RowCtx) (now : Int) (st : MetricsState) :
    (appendMetricDataPoints env m ctx now st).result.accepted
      + (appendMetricDataPoints env m ctx now st).result.rejected
    = st.result.accepted + st.result.rejected + supportedMetricPoints m.data := by
  unfold appendMetricDataPoints supportedMetricPoints
  cases m.data with
  | gauge dps => rw [appendNumberDataPoints_count]
  | sum dps mono => rw [appendNumberDataPoints_count]
  | histogram dps => rw [appendHistogramDataPoints_count]
  | summary dps =>
    show st.result.accepted + st.result.rejected
      = st.result.accepted + st.result.rejected + 0
    omega
  | unset =>
    show st.result.accepted + st.result.rejected
      = st.result.accepted + st.result.rejected + 0
    omega

theorem processMetrics_count (env : MetricsEnv) (ctx : RowCtx) (now : Int) :
    ∀ (ms : List Metric) (st : MetricsState),
      (processMetrics env ctx now ms st).result.accepted
        + (processMetrics env ctx now ms st).result.rejected
      = st.result.accepted + st.result.rejected
        + (ms.map fun m => supportedMetricPoints m.data).sum := by
  intro ms
  induction ms with
  | nil => intro st; simp [processMetrics]
  | cons m ms ih =>
    intro st
    simp only [processMetrics, List.map_cons, List.sum_cons]
    rw [ih, appendMetricDataPoints_count]
    omega

theorem processScopeMetrics_count (env : MetricsEnv)
    (resource : Option ResourceInfo) (u : String) (now : Int) :
    ∀ (sms : List ScopeMetrics) (st : MetricsState),
      (processScopeMetrics env resource u now sms st).result.accepted
        + (processScopeMetrics env resource u now sms st).result.rejected
      = st.result.accepted + st.result.rejected
        + ((sms.flatMap fun sm => sm.metrics).map
            fun m => supportedMetricPoints m.data).sum := by
  intro sms
  induction sms with
  | nil => intro st; simp [processScopeMetrics]
  | cons sm sms ih =>
    intro st
    simp only [processScopeMetrics, List.flatMap_cons, List.map_append, List.sum_append]
    rw [ih, processMetrics_count]
    omega

theorem processResourceMetrics_count (env : MetricsEnv) (now : Int) :
    ∀ (rms : List ResourceMetrics) (st : MetricsState),
      (processResourceMetrics env now rms st).result.accepted
        + (processResourceMetrics env now rms st).result.rejected
      = st.result.accepted + st.result.rejected
        + ((rms.flatMap fun rm => rm.scopeMetrics.flatMap fun sm => sm.metrics).map
            fun m => supportedMetricPoints m.data).sum := by
  intro rms
  induction rms with
  | nil => intro st; simp [processResourceMetrics]
  | cons rm rms ih =>
    intro st
    simp only [processResourceMetrics, List.flatMap_cons, List.map_append,
      List.sum_append]
    rw [ih, processScopeMetrics_count]
    omega

theorem storeMetrics_count (env : MetricsEnv) (req : MetricsRequest) (now : Int)
    (res : StoreResult) (rows : List MetricRow)
    (hok : storeMetrics env req now = .ok (res, rows)) :
    res.accepted + res.rejected = countSupportedMetricPoints req := by
  unfold storeMetrics at hok
  by_cases hempty : req.resourceMetrics.isEmpty
  · rw [if_pos hempty] at hok
    injection hok with hok
    cases hok
    have hnil : req.resourceMetrics = [] := List.isEmpty_iff.mp hempty
    simp [countSupportedMetricPoints, hnil]
  · rw [if_neg hempty] at hok
    by_cases hconn : env.connOk
    · rw [hconn] at hok
      by_cases happ : env.appenderOk
      · rw [happ] at hok
        simp only [Bool.not_true] at hok
        by_cases hf : env.flushOk
        · rw [hf] at hok
          simp only [Bool.not_true, if_neg] at hok
          injection hok with hok
          cases hok
          rw [show countSupportedMetricPoints req
              = ((req.resourceMetrics.flatMap
                    fun rm => rm.scopeMetrics.flatMap fun sm => sm.metrics).map
                  fun m => supportedMetricPoints m.data).sum
            from rfl]
          rw [processResourceMetrics_count]
          show 0 + 0 + _ = _
          omega
        · simp only [Bool.not_eq_true] at hf
          rw [hf] at hok
          simp at hok
      · simp only [Bool.not_eq_true] at happ
        rw [happ] at hok
        simp at hok
    · simp only [Bool.not_eq_true] at hconn
      rw [hconn] at hok
      simp at hok

/-! ## Claims C1, C7, C8 -/

/-- A trace environment where every database call succeeds. -/
def allOkTraceEnv : TraceEnv :=
  { connOk := true, appendersOk := true, spanErr := fun _ => none,
    eventErr := fun _ => none, linkErr := fun _ => none,
    flushSpansOk := true, flushEventsOk := true, flushLinksOk := true }

/-- A metrics environment where every database call succeeds. -/
def allOkMetricsEnv : MetricsEnv :=
  { connOk := true, appenderOk := true, uuids := fun n => "uuid-" ++ toString n,
    appendErr := fun _ => none, flushOk := true }

/-- A request with a single span. -/
def oneSpanReq (sp : Span) : TraceRequest :=
  { resourceSpans :=
      [{ resource := none,
         scopeSpans := [{ scope := none, spans := [sp], schemaUrl := "" }],
         schemaUrl := "" }] }

/-- An OTLP-conformant span: 16-byte trace id, 8-byte span id. -/
def goodSpan : Span :=
  { traceId := List.replicate 16 171, spanId := List.replicate 8 1,
    parentSpanId := [], name := "s", kind := 0, startTimeUnixNano := 1000,
    endTimeUnixNano := 2500, attributes := [], droppedAttributesCount := 0,
    events := [], links := [], status := none }

/-- The span row `goodSpan` produces. -/
def goodRow : SpanRow := mkSpanRow (mkRowCtx none "" none "") goodSpan 0

/-- A metrics request whose only metric is a Summary with one data
point. -/
def summaryReq : MetricsRequest :=
  { resourceMetrics :=
      [{ resource := none,
         scopeMetrics :=
           [{ scope := none,
              metrics :=
                [{ name := "m", description := "", unit := "",
                   data := .summary [{ timeUnixNano := 0 }] }],
              schemaUrl := "" }],
         schemaUrl := "" }] }

/-- Counterexample to C1 as stated: a metrics request with one summary
data point is stored successfully with `accepted = rejected = 0`,
although the request contains one metric data point — summary points
are silently skipped by the metric-kind dispatch. -/
theorem c1_store_counts_counterexample :
    (storeMetrics allOkMetricsEnv summaryReq 0).toOption.map
        (fun x => x.1.accepted + x.1.rejected) = some 0
    ∧ countMetricPoints summaryReq = 1 := by
  exact ⟨by decide, by decide⟩

/-- C1 (amended): whenever a store operation returns without an
infrastructure error, the returned StoreResult satisfies
`accepted + rejected = total`, where the total counts spans for traces,
log records for logs, and the supported (gauge, sum and histogram)
metric data points for metrics — summary data points are skipped and
counted neither as accepted nor as rejected. -/
theorem c1_store_counts :
    (∀ (env : TraceEnv) (req : TraceRequest) (now : Int) res sr er lr,
      storeTraces env req now = .ok (res, sr, er, lr) →
        res.accepted + res.rejected = countSpans req)
  ∧ (∀ (env : LogsEnv) (req : LogsRequest) (now : Int) res rows,
      storeLogs env req now = .ok (res, rows) →
        res.accepted + res.rejected = countLogRecords req)
  ∧ (∀ (env : MetricsEnv) (req : MetricsRequest) (now : Int) res rows,
      storeMetrics env req now = .ok (res, rows) →
        res.accepted + res.rejected = countSupportedMetricPoints req) :=
  ⟨fun env req now res sr er lr hok => storeTraces_count env req now res sr er lr hok,
   fun env req now res rows hok => storeLogs_count env req now res rows hok,
   fun env req now res rows hok => storeMetrics_count env req now res rows hok⟩

/-- Witness for C1: storing a one-span trace request counts
`1 + 0 = 1`. -/
theorem c1_store_counts_witness :
    1 + 0 = countSpans (oneSpanReq goodSpan) :=
  c1_store_counts.1 allOkTraceEnv (oneSpanReq goodSpan) 0 _ _ _ _ (by rfl)

/-- A span with a 1-byte trace id (the code never validates id
lengths). -/
def badSpan : Span :=
  { traceId := [171], spanId := [1], parentSpanId := [], name := "s",
    kind := 0, startTimeUnixNano := 0, endTimeUnixNano := 0, attributes := [],
    droppedAttributesCount := 0, events := [], links := [], status := none }

/-- Counterexample to C7 as stated: a span whose OTLP `trace_id` field
carries one byte is stored with trace_id `ab` of length 2 — neither 0
nor 32.  The code hex-encodes whatever bytes arrive. -/
theorem c7_span_id_hex_counterexample :
    (storeTraces allOkTraceEnv (oneSpanReq badSpan) 0).toOption.map
        (fun x => x.2.1.map SpanRow.traceId) = some ["ab"]
    ∧ ¬(("ab" : String).length = 0 ∨ ("ab" : String).length = 32)
    ∧ badSpan.traceId.length = 1 := by
  exact ⟨by decide, by decide, by decide⟩

/-- C7 (amended): every span row stores `hexEncode` of the input id
bytes; the stored trace_id length is in {0, 32} and span_id length in
{0, 16} whenever the input byte slices are OTLP-conformant (0 or 16
bytes of trace id, 0 or 8 bytes of span id) — the code does not
validate the lengths itself. -/
theorem c7_span_id_hex (env : TraceEnv) (req : TraceRequest) (now : Int)
    (res : StoreResult) (sr : List SpanRow) (er : List EventRow) (lr : List LinkRow)
    (hok : storeTraces env req now = .ok (res, sr, er, lr)) :
    ∀ r ∈ sr, ∃ sp ∈ allSpans req,
      r.traceId = hexEncode sp.traceId ∧ r.spanId = hexEncode sp.spanId
      ∧ ((sp.traceId.length = 0 ∨ sp.traceId.length = 16) →
          (r.traceId.length = 0 ∨ r.traceId.length = 32))
      ∧ ((sp.spanId.length = 0 ∨ sp.spanId.length = 8) →
          (r.spanId.length = 0 ∨ r.spanId.length = 16)) := by
  intro r hr
  obtain ⟨sp, hm, h1, h2, -, -, -⟩ := storeTraces_rows env req now res sr er lr hok r hr
  refine ⟨sp, hm, h1, h2, ?_, ?_⟩
  · intro hl
    rw [h1, length_hexEncode]
    rcases hl with hl | hl <;> simp [hl]
  · intro hl
    rw [h2, length_hexEncode]
    rcases hl with hl | hl <;> simp [hl]

/-- Witness for C7 (amended): the conformant `goodSpan` row. -/
theorem c7_span_id_hex_witness :
    ∃ sp ∈ allSpans (oneSpanReq goodSpan),
      goodRow.traceId = hexEncode sp.traceId
      ∧ goodRow.spanId = hexEncode sp.spanId
      ∧ ((sp.traceId.length = 0 ∨ sp.traceId.length = 16) →
          (goodRow.traceId.length = 0 ∨ goodRow.traceId.length = 32))
      ∧ ((sp.spanId.length = 0 ∨ sp.spanId.length = 8) →
          (goodRow.spanId.length = 0 ∨ goodRow.spanId.length = 16)) :=
  c7_span_id_hex allOkTraceEnv (oneSpanReq goodSpan) 0 _ _ _ _ (by rfl)
    goodRow (by decide)

/-- The interpreted `uint64` subtraction matches the mathematical
difference exactly on the representable range. -/
theorem toInt64_uint64Sub (e s : Nat) (_he : e < U64) (_hs : s < U64)
    (h1 : -(I64 : Int) ≤ (e : Int) - (s : Int)) (h2 : (e : Int) - (s : Int) < I64) :
    toInt64 (uint64Sub e s) = (e : Int) - (s : Int) := by
  unfold toInt64 uint64Sub
  unfold U64 I64 at *
  split <;> omega

/-- A span whose duration overflows `int64`: `end − start = 2^63`. -/
def hugeSpan : Span :=
  { traceId := List.replicate 16 171, spanId := List.replicate 8 1,
    parentSpanId := [], name := "s", kind := 0, startTimeUnixNano := 0,
    endTimeUnixNano := 9223372036854775808, attributes := [],
    droppedAttributesCount := 0, events := [], links := [], status := none }

/-- Counterexample to C8 as stated: for `start = 0`,
`end = 2^63`, the stored `duration_ns` is `int64(end - start)` =
`-2^63`, not the difference `2^63` — the `uint64` subtraction is
reinterpreted as a two's-complement `int64`. -/
theorem c8_duration_counterexample :
    (storeTraces allOkTraceEnv (oneSpanReq hugeSpan) 0).toOption.map
        (fun x => x.2.1.map SpanRow.durationNs) = some [-9223372036854775808]
    ∧ ((9223372036854775808 : Int) - (0 : Int) ≠ -9223372036854775808) := by
  exact ⟨by decide, by decide⟩

/-- C8 (amended): every span row stores
`duration_ns = int64(end − start)`, the two's-complement
reinterpretation of the wrapping `uint64` subtraction; it equals the
mathematical difference `end − start` exactly when that difference lies
in the `int64` range `[-2^63, 2^63)`. -/
theorem c8_duration (env : TraceEnv) (req : TraceRequest) (now : Int)
    (res : StoreResult) (sr : List SpanRow) (er : List EventRow) (lr : List LinkRow)
    (hok : storeTraces env req now = .ok (res, sr, er, lr)) :
    ∀ r ∈ sr,
      r.durationNs = toInt64 (uint64Sub r.endTime r.startTime)
      ∧ (r.startTime < U64 → r.endTime < U64 →
          -(I64 : Int) ≤ (r.endTime : Int) - (r.startTime : Int) →
          (r.endTime : Int) - (r.startTime : Int) < I64 →
          r.durationNs = (r.endTime : Int) - (r.startTime : Int)) := by
  intro r hr
  obtain ⟨sp, -, -, -, hst, hen, hdur⟩ := storeTraces_rows env req now res sr er lr hok r hr
  constructor
  · rw [hdur, hst, hen]
  · intro hb1 hb2 h1 h2
    rw [hst] at hb1 h1 h2 ⊢
    rw [hen] at hb2 h1 h2 ⊢
    rw [hdur]
    exact toInt64_uint64Sub _ _ hb2 hb1 h1 h2

/-- Witness for C8 (amended): the `goodSpan` row has
`duration_ns = 2500 − 1000`. -/
theorem c8_duration_witness :
    goodRow.durationNs = toInt64 (uint64Sub goodRow.endTime goodRow.startTime)
    ∧ (goodRow.startTime < U64 → goodRow.endTime < U64 →
        -(I64 : Int) ≤ (goodRow.endTime : Int) - (goodRow.startTime : Int) →
        (goodRow.endTime : Int) - (goodRow.startTime : Int) < I64 →
        goodRow.durationNs = (goodRow.endTime : Int) - (goodRow.startTime : Int)) :=
  c8_duration allOkTraceEnv (oneSpanReq goodSpan) 0 _ _ _ _ (by rfl) goodRow (by decide)

end Mo11y
